import Mathlib

/-!
Verification of the Between Friends escrow transfer protocol.

The development has two layers:

* An escrow ledger state machine. The Solidity sources
  (`src/contracts/SimpleEscrow.sol`, `src/contracts/USDCEscrow.sol`) are not
  part of the repository snapshot — only their Foundry test suites
  (`test/SimpleEscrow.t.sol`, the `USDCEscrowTest` suite embedded in
  `FINAL_SECURITY_AUDIT.md`) and the specification are.  The ledger below is
  therefore modelled from the spec (§3, §4.1–§4.3), following the spec's own
  design note that the two source variants form one tagged design; the check
  order and error names follow the revert strings asserted by the test suites.

* The coordinator's HTTP route handlers, embedded directly from the
  TypeScript sources `src/app/api/admin/release/route.ts` and
  `src/app/api/refund/route.ts`.  Each handler becomes a pure function from
  an environment (authentication outcome, database contents, chain-call
  outcome) and a request to a result recording the HTTP response, the
  database writes performed, and whether the on-ledger release was invoked.
-/

namespace BetweenFriends

/-! ## Escrow ledger (modelled from the spec) -/

/-- Modelled from the spec: one escrow entry per transfer identifier (§3
`EscrowEntry`).  `sender` is the depositor, `claimSecretHash` the
authorization commitment (hash of the claim secret, secret-release mode),
`expiryTime` an absolute timestamp, `claimed`/`refunded` the mutually
exclusive terminal flags and `disputed` the depositor-set early-refund flag
(signature-release variant).  Field names follow the `getTransfer` tuples of
the test suites. -/
structure Entry where
  sender : String
  amount : Nat
  claimSecretHash : Nat
  expiryTime : Nat
  claimed : Bool
  refunded : Bool
  disputed : Bool
  deriving DecidableEq, Repr

/-- Error outcomes of ledger operations; names follow the revert strings of
`SimpleEscrow.t.sol` and the custom errors of `USDCEscrowTest`. -/
inductive EscrowError where
  | notOwner
  | transferNotFound
  | transferIdExists
  | invalidAmount
  | invalidTimeout
  | alreadyClaimed
  | alreadyRefunded
  | transferAlreadyProcessed
  | transferExpired
  | invalidClaimSecret
  | signatureExpired
  | invalidSignature
  | unauthorizedSender
  | transferNotExpired
  deriving DecidableEq, Repr

/-- Modelled from the spec: the authorization message of §3, idealized as
the signed tuple itself.  A signature verifies for a claim call exactly when
its embedded fields equal the tuple the ledger reconstructs from the call
parameters and its own state, and its `signer` is the configured authority
(ECDSA recovery is idealized as reading off `signer`). -/
structure Sig where
  signer : String
  transferId : String
  recipient : String
  deadline : Nat
  nonce : Nat
  ledgerAddr : String
  chainId : Nat
  deriving DecidableEq, Repr

/-- Modelled from the spec: ledger state (§4.1).  `entries` is the
append-only deposit store keyed by transfer identifier, `balance` the
ledger's token custody (`totalEscrowed` in the signature variant),
`nonces` the per-recipient replay counters of §4.3. -/
structure Ledger where
  owner : String
  trustedSigner : String
  selfAddr : String
  chainId : Nat
  entries : List (String × Entry)
  nonces : List (String × Nat)
  balance : Nat
  deriving DecidableEq, Repr

/-- Look up the entry stored under a transfer identifier. -/
def entriesLookup : List (String × Entry) → String → Option Entry
  | [], _ => none
  | (k, v) :: rest, tid => if k = tid then some v else entriesLookup rest tid

/-- Update the entry stored under a transfer identifier in place. -/
def setEntry (es : List (String × Entry)) (tid : String) (f : Entry → Entry) :
    List (String × Entry) :=
  es.map fun kv => if kv.1 = tid then (kv.1, f kv.2) else kv

/-- Amount a single entry contributes to the ledger's custody: `amount`
while the entry is active, `0` once claimed or refunded. -/
def activeAmount (e : Entry) : Nat :=
  if e.claimed || e.refunded then 0 else e.amount

/-- Sum of `amount` over all entries with `claimed = refunded = false`. -/
def activeSum (es : List (String × Entry)) : Nat :=
  (es.map fun kv => activeAmount kv.2).sum

/-- Current nonce of a recipient address (0 before the first claim). -/
def nonceOf : List (String × Nat) → String → Nat
  | [], _ => 0
  | (k, v) :: rest, a => if k = a then v else nonceOf rest a

/-- Store a recipient's nonce. -/
def setNonce : List (String × Nat) → String → Nat → List (String × Nat)
  | [], a, v => [(a, v)]
  | (k, w) :: rest, a, v =>
    if k = a then (a, v) :: rest else (k, w) :: setNonce rest a v

/-- Result of a funds-moving ledger operation: the new state together with
the payout the operation makes (payee, amount), if any. -/
abbrev EscrowResult := Except EscrowError (Ledger × Option (String × Nat))

/-- True exactly on the success case of a ledger operation. -/
def exceptOk : EscrowResult → Bool
  | .ok _ => true
  | .error _ => false

/-- Modelled from the spec: `deposit(transferId, amount,
authorizationCommitment, timeout)` (§4.1) fails if the identifier already
exists, the amount is zero, or the timeout (in days) lies outside
`[1, 365]`; on success it takes `amount` into custody and creates the entry
with `expiryTime = now + timeout`.  Token-allowance failures and the global
pause switch are cross-cutting concerns outside this model. -/
def Escrow.deposit (L : Ledger) (caller tid : String)
    (amount commitment timeoutDays now : Nat) : EscrowResult :=
  if (entriesLookup L.entries tid).isSome then .error .transferIdExists
  else if amount = 0 then .error .invalidAmount
  else if timeoutDays < 1 ∨ 365 < timeoutDays then .error .invalidTimeout
  else .ok ({ L with
      entries := (tid, ⟨caller, amount, commitment, now + timeoutDays * 86400,
                        false, false, false⟩) :: L.entries,
      balance := L.balance + amount }, none)

/-- Modelled from the spec: the secret-release path (§4.2,
`adminRelease(transferId, claimSecret, recipient)` of `SimpleEscrow`).
Restricted to the single privileged caller (the owner); recomputes the hash
of the supplied plaintext secret and compares to the stored commitment;
check order follows §4.1 and the revert strings of `SimpleEscrow.t.sol`. -/
def Escrow.adminRelease (h : String → Nat) (L : Ledger)
    (caller tid secret recipient : String) (now : Nat) : EscrowResult :=
  if caller ≠ L.owner then .error .notOwner
  else match entriesLookup L.entries tid with
  | none => .error .transferNotFound
  | some e =>
    if e.claimed then .error .alreadyClaimed
    else if e.refunded then .error .alreadyRefunded
    else if e.expiryTime < now then .error .transferExpired
    else if h secret ≠ e.claimSecretHash then .error .invalidClaimSecret
    else .ok ({ L with
        entries := setEntry L.entries tid fun x => { x with claimed := true },
        balance := L.balance - e.amount }, some (recipient, e.amount))

/-- Modelled from the spec: the signature-release path (§4.3,
`claim(transferId, recipient, deadline, signature)` of `USDCEscrow`).
Verifies the idealized signature against the tuple rebuilt from the call
parameters, the recipient's current nonce, the ledger address and chain id;
on success marks the entry claimed and increments the recipient's nonce. -/
def Escrow.claim (L : Ledger) (tid recipient : String) (deadline : Nat)
    (sig : Sig) (now : Nat) : EscrowResult :=
  match entriesLookup L.entries tid with
  | none => .error .transferNotFound
  | some e =>
    if e.claimed || e.refunded then .error .transferAlreadyProcessed
    else if e.expiryTime < now then .error .transferExpired
    else if deadline < now then .error .signatureExpired
    else if sig ≠ ⟨L.trustedSigner, tid, recipient, deadline,
                   nonceOf L.nonces recipient, L.selfAddr, L.chainId⟩ then
      .error .invalidSignature
    else .ok ({ L with
        entries := setEntry L.entries tid fun x => { x with claimed := true },
        nonces := setNonce L.nonces recipient (nonceOf L.nonces recipient + 1),
        balance := L.balance - e.amount }, some (recipient, e.amount))

/-- Modelled from the spec: `refund(transferId)` (§4.1), callable only by
the depositor, gated on expiry or the dispute flag; returns `amount` to the
depositor.  The depositor check precedes the expiry check, as in
`test_RevertUnauthorizedRefund` (unauthorized error fires even past
expiry). -/
def Escrow.refund (L : Ledger) (caller tid : String) (now : Nat) :
    EscrowResult :=
  match entriesLookup L.entries tid with
  | none => .error .transferNotFound
  | some e =>
    if e.claimed then .error .alreadyClaimed
    else if e.refunded then .error .alreadyRefunded
    else if caller ≠ e.sender then .error .unauthorizedSender
    else if e.expiryTime < now ∨ e.disputed = true then
      .ok ({ L with
          entries := setEntry L.entries tid fun x => { x with refunded := true },
          balance := L.balance - e.amount }, some (e.sender, e.amount))
    else .error .transferNotExpired

/-- Modelled from the spec: `disputeTransfer(transferId)` (§4.1), callable
only by the depositor while the entry is active; one-way flag, moves no
funds. -/
def Escrow.disputeTransfer (L : Ledger) (caller tid : String) : EscrowResult :=
  match entriesLookup L.entries tid with
  | none => .error .transferNotFound
  | some e =>
    if e.claimed || e.refunded then .error .transferAlreadyProcessed
    else if caller ≠ e.sender then .error .unauthorizedSender
    else .ok ({ L with
        entries := setEntry L.entries tid fun x => { x with disputed := true } },
      none)

/-- Modelled from the spec: `emergencyRelease` (§4.1, `emergencyClaim` in
the tests): administrator-only, bypasses proof and expiry checks but still
enforces the claimed/refunded mutual exclusion. -/
def Escrow.emergencyClaim (L : Ledger) (caller tid recipient : String) :
    EscrowResult :=
  if caller ≠ L.owner then .error .notOwner
  else match entriesLookup L.entries tid with
  | none => .error .transferNotFound
  | some e =>
    if e.claimed || e.refunded then .error .transferAlreadyProcessed
    else .ok ({ L with
        entries := setEntry L.entries tid fun x => { x with claimed := true },
        balance := L.balance - e.amount }, some (recipient, e.amount))

/-- Modelled from the spec: `emergencyRefund` (§4.1): administrator-only,
bypasses expiry and dispute checks but still enforces the claimed/refunded
mutual exclusion; returns `amount` to the depositor. -/
def Escrow.emergencyRefund (L : Ledger) (caller tid : String) : EscrowResult :=
  if caller ≠ L.owner then .error .notOwner
  else match entriesLookup L.entries tid with
  | none => .error .transferNotFound
  | some e =>
    if e.claimed || e.refunded then .error .transferAlreadyProcessed
    else .ok ({ L with
        entries := setEntry L.entries tid fun x => { x with refunded := true },
        balance := L.balance - e.amount }, some (e.sender, e.amount))

/-- One ledger operation, for reasoning about arbitrary sequences. -/
inductive Op where
  | deposit (caller tid : String) (amount commitment timeoutDays now : Nat)
  | adminRelease (caller tid secret recipient : String) (now : Nat)
  | claim (tid recipient : String) (deadline : Nat) (sig : Sig) (now : Nat)
  | refund (caller tid : String) (now : Nat)
  | dispute (caller tid : String)
  | emergencyClaim (caller tid recipient : String)
  | emergencyRefund (caller tid : String)
  deriving Repr

/-- Apply one operation; a failed operation leaves the ledger unchanged
(§7: verification happens strictly before transfer, failures never
partially move funds). -/
def applyOp (h : String → Nat) (L : Ledger) : Op → Ledger
  | .deposit caller tid amount commitment timeoutDays now =>
    match Escrow.deposit L caller tid amount commitment timeoutDays now with
    | .ok (L2, _) => L2
    | .error _ => L
  | .adminRelease caller tid secret recipient now =>
    match Escrow.adminRelease h L caller tid secret recipient now with
    | .ok (L2, _) => L2
    | .error _ => L
  | .claim tid recipient deadline sig now =>
    match Escrow.claim L tid recipient deadline sig now with
    | .ok (L2, _) => L2
    | .error _ => L
  | .refund caller tid now =>
    match Escrow.refund L caller tid now with
    | .ok (L2, _) => L2
    | .error _ => L
  | .dispute caller tid =>
    match Escrow.disputeTransfer L caller tid with
    | .ok (L2, _) => L2
    | .error _ => L
  | .emergencyClaim caller tid recipient =>
    match Escrow.emergencyClaim L caller tid recipient with
    | .ok (L2, _) => L2
    | .error _ => L
  | .emergencyRefund caller tid =>
    match Escrow.emergencyRefund L caller tid with
    | .ok (L2, _) => L2
    | .error _ => L

/-- Run a sequence of ledger operations. -/
def run (h : String → Nat) (L : Ledger) : List Op → Ledger
  | [] => L
  | op :: ops => run h (applyOp h L op) ops

/-- The empty ledger. -/
def initLedger (owner trustedSigner selfAddr : String) (chainId : Nat) :
    Ledger :=
  { owner := owner, trustedSigner := trustedSigner, selfAddr := selfAddr,
    chainId := chainId, entries := [], nonces := [], balance := 0 }

/-- An entry never has both terminal flags set. -/
def entryOk (e : Entry) : Bool := !(e.claimed && e.refunded)

/-- The ledger invariant of spec §3: no entry is both claimed and refunded,
the custody balance equals the sum of `amount` over active entries, and
transfer identifiers are unique. -/
def Ledger.good (L : Ledger) : Prop :=
  (∀ kv ∈ L.entries, entryOk kv.2 = true)
  ∧ L.balance = activeSum L.entries
  ∧ (L.entries.map Prod.fst).Nodup

instance (L : Ledger) : Decidable L.good := by
  unfold Ledger.good
  infer_instance

/-! ## Association-list lemmas -/

theorem activeSum_cons (k : String) (x : Entry) (l : List (String × Entry)) :
    activeSum ((k, x) :: l) = activeAmount x + activeSum l := by
  simp [activeSum]

theorem entriesLookup_mem {es : List (String × Entry)} {tid : String}
    {e : Entry} (h : entriesLookup es tid = some e) : (tid, e) ∈ es := by
  induction es with
  | nil => simp [entriesLookup] at h
  | cons kv rest ih =>
    obtain ⟨k, v⟩ := kv
    by_cases hk : k = tid
    · subst hk
      have hv : v = e := by simpa [entriesLookup] using h
      subst hv
      exact List.mem_cons_self _ _
    · have h2 : entriesLookup rest tid = some e := by
        simpa [entriesLookup, hk] using h
      exact List.mem_cons_of_mem _ (ih h2)

theorem not_mem_of_entriesLookup_none {es : List (String × Entry)}
    {tid : String} (h : entriesLookup es tid = none) :
    tid ∉ es.map Prod.fst := by
  induction es with
  | nil => simp
  | cons kv rest ih =>
    obtain ⟨k, v⟩ := kv
    by_cases hk : k = tid
    · simp [entriesLookup, hk] at h
    · have h2 : entriesLookup rest tid = none := by
        simpa [entriesLookup, hk] using h
      have hne : ¬ tid = k := fun hc => hk hc.symm
      simp only [List.map_cons, List.mem_cons, not_or]
      exact ⟨hne, ih h2⟩

theorem setEntry_of_not_mem {es : List (String × Entry)} {tid : String}
    {f : Entry → Entry} (h : tid ∉ es.map Prod.fst) : setEntry es tid f = es := by
  induction es with
  | nil => rfl
  | cons kv rest ih =>
    obtain ⟨k, v⟩ := kv
    simp only [List.map_cons, List.mem_cons, not_or] at h
    have hk : ¬ k = tid := fun hc => h.1 hc.symm
    show (if k = tid then (k, f v) else (k, v)) :: setEntry rest tid f
        = (k, v) :: rest
    rw [if_neg hk, ih h.2]

theorem keys_setEntry (es : List (String × Entry)) (tid : String)
    (f : Entry → Entry) :
    (setEntry es tid f).map Prod.fst = es.map Prod.fst := by
  induction es with
  | nil => rfl
  | cons kv rest ih =>
    obtain ⟨k, v⟩ := kv
    show (if k = tid then (k, f v) else (k, v)).1 :: (setEntry rest tid f).map Prod.fst
        = k :: rest.map Prod.fst
    by_cases hk : k = tid
    · rw [if_pos hk, ih]
    · rw [if_neg hk, ih]

theorem mem_setEntry {es : List (String × Entry)} {tid : String}
    {f : Entry → Entry} {kv : String × Entry}
    (h : kv ∈ setEntry es tid f) :
    kv ∈ es ∨ ∃ v, (tid, v) ∈ es ∧ kv = (tid, f v) := by
  simp only [setEntry, List.mem_map] at h
  obtain ⟨⟨k, v⟩, hmem, hEq⟩ := h
  by_cases hk : k = tid
  · subst hk
    rw [if_pos rfl] at hEq
    exact Or.inr ⟨v, hmem, hEq.symm⟩
  · rw [if_neg hk] at hEq
    exact Or.inl (hEq ▸ hmem)

theorem lookup_of_mem_nodup {es : List (String × Entry)} {tid : String}
    {v : Entry} (hmem : (tid, v) ∈ es)
    (hnd : (es.map Prod.fst).Nodup) : entriesLookup es tid = some v := by
  induction es with
  | nil => simp at hmem
  | cons kv rest ih =>
    obtain ⟨k, w⟩ := kv
    simp only [List.map_cons, List.nodup_cons] at hnd
    rcases List.mem_cons.mp hmem with hEq | hmem2
    · injection hEq with h1 h2
      subst h1
      subst h2
      simp [entriesLookup]
    · have htid : tid ∈ rest.map Prod.fst :=
        List.mem_map.mpr ⟨(tid, v), hmem2, rfl⟩
      have hk : ¬ k = tid := fun hc => hnd.1 (hc ▸ htid)
      have := ih hmem2 hnd.2
      simpa [entriesLookup, hk] using this

theorem entriesLookup_setEntry_self {es : List (String × Entry)}
    {tid : String} {e : Entry} (f : Entry → Entry)
    (h : entriesLookup es tid = some e) :
    entriesLookup (setEntry es tid f) tid = some (f e) := by
  induction es with
  | nil => simp [entriesLookup] at h
  | cons kv rest ih =>
    obtain ⟨k, v⟩ := kv
    show entriesLookup
        ((if k = tid then (k, f v) else (k, v)) :: setEntry rest tid f) tid
        = some (f e)
    by_cases hk : k = tid
    · subst hk
      have hv : v = e := by simpa [entriesLookup] using h
      subst hv
      rw [if_pos rfl]
      simp [entriesLookup]
    · have h2 : entriesLookup rest tid = some e := by
        simpa [entriesLookup, hk] using h
      rw [if_neg hk]
      show (if k = tid then some v else entriesLookup (setEntry rest tid f) tid)
          = some (f e)
      rw [if_neg hk]
      exact ih h2

theorem entriesLookup_setEntry_ne {es : List (String × Entry)}
    {tid tid2 : String} (f : Entry → Entry) (h : tid2 ≠ tid) :
    entriesLookup (setEntry es tid f) tid2 = entriesLookup es tid2 := by
  induction es with
  | nil => rfl
  | cons kv rest ih =>
    obtain ⟨k, v⟩ := kv
    show entriesLookup
        ((if k = tid then (k, f v) else (k, v)) :: setEntry rest tid f) tid2
        = entriesLookup ((k, v) :: rest) tid2
    by_cases hk : k = tid
    · subst hk
      rw [if_pos rfl]
      have hk2 : ¬ k = tid2 := fun hc => h (hc ▸ rfl)
      show (if k = tid2 then some (f v) else entriesLookup (setEntry rest k f) tid2)
          = (if k = tid2 then some v else entriesLookup rest tid2)
      rw [if_neg hk2, if_neg hk2]
      exact ih
    · rw [if_neg hk]
      show (if k = tid2 then some v else entriesLookup (setEntry rest tid f) tid2)
          = (if k = tid2 then some v else entriesLookup rest tid2)
      by_cases hk2 : k = tid2
      · rw [if_pos hk2, if_pos hk2]
      · rw [if_neg hk2, if_neg hk2]
        exact ih

theorem activeSum_setEntry {es : List (String × Entry)} {tid : String}
    {e : Entry} (f : Entry → Entry)
    (hnd : (es.map Prod.fst).Nodup) (h : entriesLookup es tid = some e) :
    activeSum (setEntry es tid f) + activeAmount e
      = activeSum es + activeAmount (f e) := by
  induction es with
  | nil => simp [entriesLookup] at h
  | cons kv rest ih =>
    obtain ⟨k, v⟩ := kv
    simp only [List.map_cons, List.nodup_cons] at hnd
    have hstep : setEntry ((k, v) :: rest) tid f
        = (if k = tid then (k, f v) else (k, v)) :: setEntry rest tid f := rfl
    by_cases hk : k = tid
    · subst hk
      have hv : v = e := by simpa [entriesLookup] using h
      subst hv
      rw [hstep, if_pos rfl, setEntry_of_not_mem hnd.1,
        activeSum_cons, activeSum_cons]
      omega
    · have h2 : entriesLookup rest tid = some e := by
        simpa [entriesLookup, hk] using h
      have := ih hnd.2 h2
      rw [hstep, if_neg hk, activeSum_cons, activeSum_cons]
      omega

theorem activeAmount_le_activeSum {es : List (String × Entry)} {tid : String}
    {e : Entry} (h : entriesLookup es tid = some e) :
    activeAmount e ≤ activeSum es := by
  have hmem := entriesLookup_mem h
  have : activeAmount e ∈ es.map fun kv => activeAmount kv.2 :=
    List.mem_map.mpr ⟨(tid, e), hmem, rfl⟩
  exact List.single_le_sum (fun x _ => Nat.zero_le x) _ this

/-! ## Invariant preservation -/

theorem good_parts_setEntry (f : Entry → Entry) (b2 : Nat)
    {es : List (String × Entry)} {tid : String} {e : Entry} {b : Nat}
    (hEntries : ∀ kv ∈ es, entryOk kv.2 = true)
    (hBal : b = activeSum es) (hNd : (es.map Prod.fst).Nodup)
    (hl : entriesLookup es tid = some e)
    (hok : entryOk (f e) = true)
    (hbal : b2 + activeAmount e = b + activeAmount (f e)) :
    (∀ kv ∈ setEntry es tid f, entryOk kv.2 = true)
    ∧ b2 = activeSum (setEntry es tid f)
    ∧ ((setEntry es tid f).map Prod.fst).Nodup := by
  refine ⟨?_, ?_, ?_⟩
  · intro kv hkv
    rcases mem_setEntry hkv with hmem | ⟨v, hmem, hEq⟩
    · exact hEntries kv hmem
    · have hv : v = e := by
        have := lookup_of_mem_nodup hmem hNd
        rw [hl] at this
        exact (Option.some.injEq .. ▸ this).symm
      subst hv
      rw [hEq]
      exact hok
  · have hsum := activeSum_setEntry f hNd hl
    have h2 : b2 + activeAmount e
        = activeSum (setEntry es tid f) + activeAmount e := by
      omega
    exact Nat.add_right_cancel h2
  · rw [keys_setEntry]
    exact hNd

theorem good_markTerminal (f : Entry → Entry)
    {es : List (String × Entry)} {tid : String} {e : Entry} {b : Nat}
    (hEntries : ∀ kv ∈ es, entryOk kv.2 = true)
    (hBal : b = activeSum es) (hNd : (es.map Prod.fst).Nodup)
    (hl : entriesLookup es tid = some e)
    (hc : e.claimed = false) (hr : e.refunded = false)
    (hok : entryOk (f e) = true) (hzero : activeAmount (f e) = 0) :
    (∀ kv ∈ setEntry es tid f, entryOk kv.2 = true)
    ∧ b - e.amount = activeSum (setEntry es tid f)
    ∧ ((setEntry es tid f).map Prod.fst).Nodup := by
  have hact : activeAmount e = e.amount := by simp [activeAmount, hc, hr]
  have hle : e.amount ≤ b := by
    have := activeAmount_le_activeSum hl
    omega
  exact good_parts_setEntry f (b - e.amount) hEntries hBal hNd hl hok (by omega)

theorem deposit_ok {L : Ledger} {caller tid : String}
    {amount commitment timeoutDays now : Nat} {L2 : Ledger}
    {p : Option (String × Nat)}
    (hres : Escrow.deposit L caller tid amount commitment timeoutDays now
      = .ok (L2, p)) :
    entriesLookup L.entries tid = none ∧ amount ≠ 0
    ∧ 1 ≤ timeoutDays ∧ timeoutDays ≤ 365
    ∧ L2 = { L with
        entries := (tid, ⟨caller, amount, commitment, now + timeoutDays * 86400,
                          false, false, false⟩) :: L.entries,
        balance := L.balance + amount }
    ∧ p = none := by
  unfold Escrow.deposit at hres
  split at hres
  · exact absurd hres (by simp)
  · split at hres
    · exact absurd hres (by simp)
    · split at hres
      · exact absurd hres (by simp)
      · rename_i hlook hamt htime
        simp only [Except.ok.injEq, Prod.mk.injEq] at hres
        refine ⟨?_, hamt, ?_, ?_, hres.1.symm, hres.2.symm⟩
        · cases hcase : entriesLookup L.entries tid with
          | none => rfl
          | some v => rw [hcase] at hlook; simp at hlook
        · omega
        · omega

theorem adminRelease_ok {h : String → Nat} {L : Ledger}
    {caller tid secret recipient : String} {now : Nat} {L2 : Ledger}
    {p : Option (String × Nat)}
    (hres : Escrow.adminRelease h L caller tid secret recipient now
      = .ok (L2, p)) :
    ∃ e, entriesLookup L.entries tid = some e
    ∧ caller = L.owner
    ∧ e.claimed = false ∧ e.refunded = false
    ∧ ¬ e.expiryTime < now
    ∧ h secret = e.claimSecretHash
    ∧ L2 = { L with
        entries := setEntry L.entries tid fun x => { x with claimed := true },
        balance := L.balance - e.amount }
    ∧ p = some (recipient, e.amount) := by
  unfold Escrow.adminRelease at hres
  split at hres
  · exact absurd hres (by simp)
  · rename_i howner
    split at hres
    · exact absurd hres (by simp)
    · rename_i e hlook
      split at hres
      · exact absurd hres (by simp)
      · split at hres
        · exact absurd hres (by simp)
        · split at hres
          · exact absurd hres (by simp)
          · split at hres
            · exact absurd hres (by simp)
            · rename_i hc hr hexp hsec
              simp only [Except.ok.injEq, Prod.mk.injEq] at hres
              refine ⟨e, hlook, by simpa using howner,
                by simpa using hc, by simpa using hr, hexp,
                by simpa using hsec, hres.1.symm, hres.2.symm⟩

theorem claim_ok {L : Ledger} {tid recipient : String} {deadline : Nat}
    {sig : Sig} {now : Nat} {L2 : Ledger} {p : Option (String × Nat)}
    (hres : Escrow.claim L tid recipient deadline sig now = .ok (L2, p)) :
    ∃ e, entriesLookup L.entries tid = some e
    ∧ e.claimed = false ∧ e.refunded = false
    ∧ ¬ e.expiryTime < now
    ∧ ¬ deadline < now
    ∧ sig = ⟨L.trustedSigner, tid, recipient, deadline,
             nonceOf L.nonces recipient, L.selfAddr, L.chainId⟩
    ∧ L2 = { L with
        entries := setEntry L.entries tid fun x => { x with claimed := true },
        nonces := setNonce L.nonces recipient (nonceOf L.nonces recipient + 1),
        balance := L.balance - e.amount }
    ∧ p = some (recipient, e.amount) := by
  unfold Escrow.claim at hres
  split at hres
  · exact absurd hres (by simp)
  · rename_i e hlook
    split at hres
    · exact absurd hres (by simp)
    · split at hres
      · exact absurd hres (by simp)
      · split at hres
        · exact absurd hres (by simp)
        · split at hres
          · exact absurd hres (by simp)
          · rename_i hproc hexp hdl hsig
            simp only [Bool.or_eq_true, not_or] at hproc
            simp only [Except.ok.injEq, Prod.mk.injEq] at hres
            refine ⟨e, hlook, by simpa using hproc.1, by simpa using hproc.2,
              hexp, hdl, by simpa using hsig, hres.1.symm, hres.2.symm⟩

theorem refund_ok {L : Ledger} {caller tid : String} {now : Nat}
    {L2 : Ledger} {p : Option (String × Nat)}
    (hres : Escrow.refund L caller tid now = .ok (L2, p)) :
    ∃ e, entriesLookup L.entries tid = some e
    ∧ e.claimed = false ∧ e.refunded = false
    ∧ caller = e.sender
    ∧ (e.expiryTime < now ∨ e.disputed = true)
    ∧ L2 = { L with
        entries := setEntry L.entries tid fun x => { x with refunded := true },
        balance := L.balance - e.amount }
    ∧ p = some (e.sender, e.amount) := by
  unfold Escrow.refund at hres
  split at hres
  · exact absurd hres (by simp)
  · rename_i e hlook
    split at hres
    · exact absurd hres (by simp)
    · split at hres
      · exact absurd hres (by simp)
      · split at hres
        · exact absurd hres (by simp)
        · split at hres
          · rename_i hc hr hsender hgate
            simp only [Except.ok.injEq, Prod.mk.injEq] at hres
            refine ⟨e, hlook, by simpa using hc, by simpa using hr,
              by simpa using hsender, hgate, hres.1.symm, hres.2.symm⟩
          · exact absurd hres (by simp)

theorem dispute_ok {L : Ledger} {caller tid : String} {L2 : Ledger}
    {p : Option (String × Nat)}
    (hres : Escrow.disputeTransfer L caller tid = .ok (L2, p)) :
    ∃ e, entriesLookup L.entries tid = some e
    ∧ e.claimed = false ∧ e.refunded = false
    ∧ caller = e.sender
    ∧ L2 = { L with
        entries := setEntry L.entries tid fun x => { x with disputed := true } }
    ∧ p = none := by
  unfold Escrow.disputeTransfer at hres
  split at hres
  · exact absurd hres (by simp)
  · rename_i e hlook
    split at hres
    · exact absurd hres (by simp)
    · split at hres
      · exact absurd hres (by simp)
      · rename_i hproc hsender
        simp only [Bool.or_eq_true, not_or] at hproc
        simp only [Except.ok.injEq, Prod.mk.injEq] at hres
        refine ⟨e, hlook, by simpa using hproc.1, by simpa using hproc.2,
          by simpa using hsender, hres.1.symm, hres.2.symm⟩

theorem emergencyClaim_ok {L : Ledger} {caller tid recipient : String}
    {L2 : Ledger} {p : Option (String × Nat)}
    (hres : Escrow.emergencyClaim L caller tid recipient = .ok (L2, p)) :
    ∃ e, entriesLookup L.entries tid = some e
    ∧ caller = L.owner
    ∧ e.claimed = false ∧ e.refunded = false
    ∧ L2 = { L with
        entries := setEntry L.entries tid fun x => { x with claimed := true },
        balance := L.balance - e.amount }
    ∧ p = some (recipient, e.amount) := by
  unfold Escrow.emergencyClaim at hres
  split at hres
  · exact absurd hres (by simp)
  · rename_i howner
    split at hres
    · exact absurd hres (by simp)
    · rename_i e hlook
      split at hres
      · exact absurd hres (by simp)
      · rename_i hproc
        simp only [Bool.or_eq_true, not_or] at hproc
        simp only [Except.ok.injEq, Prod.mk.injEq] at hres
        refine ⟨e, hlook, by simpa using howner, by simpa using hproc.1,
          by simpa using hproc.2, hres.1.symm, hres.2.symm⟩

theorem emergencyRefund_ok {L : Ledger} {caller tid : String}
    {L2 : Ledger} {p : Option (String × Nat)}
    (hres : Escrow.emergencyRefund L caller tid = .ok (L2, p)) :
    ∃ e, entriesLookup L.entries tid = some e
    ∧ caller = L.owner
    ∧ e.claimed = false ∧ e.refunded = false
    ∧ L2 = { L with
        entries := setEntry L.entries tid fun x => { x with refunded := true },
        balance := L.balance - e.amount }
    ∧ p = some (e.sender, e.amount) := by
  unfold Escrow.emergencyRefund at hres
  split at hres
  · exact absurd hres (by simp)
  · rename_i howner
    split at hres
    · exact absurd hres (by simp)
    · rename_i e hlook
      split at hres
      · exact absurd hres (by simp)
      · rename_i hproc
        simp only [Bool.or_eq_true, not_or] at hproc
        simp only [Except.ok.injEq, Prod.mk.injEq] at hres
        refine ⟨e, hlook, by simpa using howner, by simpa using hproc.1,
          by simpa using hproc.2, hres.1.symm, hres.2.symm⟩

theorem applyOp_good (h : String → Nat) (L : Ledger) (op : Op)
    (hg : L.good) : (applyOp h L op).good := by
  obtain ⟨hEntries, hBal, hNd⟩ := hg
  cases op with
  | deposit caller tid amount commitment timeoutDays now =>
    simp only [applyOp]
    cases hres : Escrow.deposit L caller tid amount commitment timeoutDays now with
    | error _ => exact ⟨hEntries, hBal, hNd⟩
    | ok pair =>
      obtain ⟨L2, p⟩ := pair
      obtain ⟨hlook, hamt, _, _, hL2, _⟩ := deposit_ok hres
      subst hL2
      refine ⟨?_, ?_, ?_⟩
      · intro kv hkv
        rcases List.mem_cons.mp hkv with hEq | hmem
        · rw [hEq]; rfl
        · exact hEntries kv hmem
      · show L.balance + amount = activeSum ((tid, _) :: L.entries)
        rw [activeSum_cons]
        simp only [activeAmount, Bool.or_self, Bool.false_eq_true, if_false]
        omega
      · exact List.nodup_cons.mpr ⟨not_mem_of_entriesLookup_none hlook, hNd⟩
  | adminRelease caller tid secret recipient now =>
    simp only [applyOp]
    cases hres : Escrow.adminRelease h L caller tid secret recipient now with
    | error _ => exact ⟨hEntries, hBal, hNd⟩
    | ok pair =>
      obtain ⟨L2, p⟩ := pair
      obtain ⟨e, hlook, _, hc, hr, _, _, hL2, _⟩ := adminRelease_ok hres
      subst hL2
      have G := good_markTerminal (fun x => { x with claimed := true })
        hEntries hBal hNd hlook hc hr
        (by simp [entryOk, hr]) (by simp [activeAmount])
      exact ⟨G.1, G.2.1, G.2.2⟩
  | claim tid recipient deadline sig now =>
    simp only [applyOp]
    cases hres : Escrow.claim L tid recipient deadline sig now with
    | error _ => exact ⟨hEntries, hBal, hNd⟩
    | ok pair =>
      obtain ⟨L2, p⟩ := pair
      obtain ⟨e, hlook, hc, hr, _, _, _, hL2, _⟩ := claim_ok hres
      subst hL2
      have G := good_markTerminal (fun x => { x with claimed := true })
        hEntries hBal hNd hlook hc hr
        (by simp [entryOk, hr]) (by simp [activeAmount])
      exact ⟨G.1, G.2.1, G.2.2⟩
  | refund caller tid now =>
    simp only [applyOp]
    cases hres : Escrow.refund L caller tid now with
    | error _ => exact ⟨hEntries, hBal, hNd⟩
    | ok pair =>
      obtain ⟨L2, p⟩ := pair
      obtain ⟨e, hlook, hc, hr, _, _, hL2, _⟩ := refund_ok hres
      subst hL2
      have G := good_markTerminal (fun x => { x with refunded := true })
        hEntries hBal hNd hlook hc hr
        (by simp [entryOk, hc]) (by simp [activeAmount])
      exact ⟨G.1, G.2.1, G.2.2⟩
  | dispute caller tid =>
    simp only [applyOp]
    cases hres : Escrow.disputeTransfer L caller tid with
    | error _ => exact ⟨hEntries, hBal, hNd⟩
    | ok pair =>
      obtain ⟨L2, p⟩ := pair
      obtain ⟨e, hlook, hc, hr, _, hL2, _⟩ := dispute_ok hres
      subst hL2
      have G := good_parts_setEntry (fun x => { x with disputed := true })
        L.balance hEntries hBal hNd hlook
        (by simp [entryOk, hc, hr])
        (by simp [activeAmount, hc, hr])
      exact ⟨G.1, G.2.1, G.2.2⟩
  | emergencyClaim caller tid recipient =>
    simp only [applyOp]
    cases hres : Escrow.emergencyClaim L caller tid recipient with
    | error _ => exact ⟨hEntries, hBal, hNd⟩
    | ok pair =>
      obtain ⟨L2, p⟩ := pair
      obtain ⟨e, hlook, _, hc, hr, hL2, _⟩ := emergencyClaim_ok hres
      subst hL2
      have G := good_markTerminal (fun x => { x with claimed := true })
        hEntries hBal hNd hlook hc hr
        (by simp [entryOk, hr]) (by simp [activeAmount])
      exact ⟨G.1, G.2.1, G.2.2⟩
  | emergencyRefund caller tid =>
    simp only [applyOp]
    cases hres : Escrow.emergencyRefund L caller tid with
    | error _ => exact ⟨hEntries, hBal, hNd⟩
    | ok pair =>
      obtain ⟨L2, p⟩ := pair
      obtain ⟨e, hlook, _, hc, hr, hL2, _⟩ := emergencyRefund_ok hres
      subst hL2
      have G := good_markTerminal (fun x => { x with refunded := true })
        hEntries hBal hNd hlook hc hr
        (by simp [entryOk, hc]) (by simp [activeAmount])
      exact ⟨G.1, G.2.1, G.2.2⟩

theorem run_good (h : String → Nat) (ops : List Op) (L : Ledger)
    (hg : L.good) : (run h L ops).good := by
  induction ops generalizing L with
  | nil => exact hg
  | cons op ops ih => exact ih _ (applyOp_good h L op hg)

theorem initLedger_good (owner trustedSigner selfAddr : String)
    (chainId : Nat) : (initLedger owner trustedSigner selfAddr chainId).good :=
  ⟨fun kv hkv => absurd hkv (List.not_mem_nil kv), rfl, List.nodup_nil⟩

theorem nonceOf_setNonce_self (ns : List (String × Nat)) (a : String)
    (v : Nat) : nonceOf (setNonce ns a v) a = v := by
  induction ns with
  | nil => simp [setNonce, nonceOf]
  | cons kv rest ih =>
    obtain ⟨k, w⟩ := kv
    by_cases hk : k = a
    · simp [setNonce, hk, nonceOf]
    · simp [setNonce, hk, nonceOf, ih]

theorem error_of_not_ok {r : EscrowResult}
    (hno : ∀ L2 p, r ≠ .ok (L2, p)) : ∃ err, r = .error err := by
  cases r with
  | ok pair =>
    obtain ⟨L2, p⟩ := pair
    exact absurd rfl (hno L2 p)
  | error err => exact ⟨err, rfl⟩

theorem adminRelease_success {h : String → Nat} {L : Ledger} {tid : String}
    {e : Entry} (secret recipient : String) (now : Nat)
    (hl : entriesLookup L.entries tid = some e)
    (hc : e.claimed = false) (hr : e.refunded = false)
    (hexp : ¬ e.expiryTime < now) (hsec : h secret = e.claimSecretHash) :
    Escrow.adminRelease h L L.owner tid secret recipient now
      = .ok ({ L with
          entries := setEntry L.entries tid fun x => { x with claimed := true },
          balance := L.balance - e.amount }, some (recipient, e.amount)) := by
  unfold Escrow.adminRelease
  simp [hl, hc, hr, hexp, hsec]

theorem claim_success {L : Ledger} {tid : String} {e : Entry}
    (recipient : String) (deadline now : Nat)
    (hl : entriesLookup L.entries tid = some e)
    (hc : e.claimed = false) (hr : e.refunded = false)
    (hexp : ¬ e.expiryTime < now) (hdl : ¬ deadline < now) :
    Escrow.claim L tid recipient deadline
      ⟨L.trustedSigner, tid, recipient, deadline, nonceOf L.nonces recipient,
       L.selfAddr, L.chainId⟩ now
      = .ok ({ L with
          entries := setEntry L.entries tid fun x => { x with claimed := true },
          nonces := setNonce L.nonces recipient (nonceOf L.nonces recipient + 1),
          balance := L.balance - e.amount }, some (recipient, e.amount)) := by
  unfold Escrow.claim
  simp [hl, hc, hr, hexp, hdl]

theorem refund_success {L : Ledger} {tid : String} {e : Entry} (now : Nat)
    (hl : entriesLookup L.entries tid = some e)
    (hc : e.claimed = false) (hr : e.refunded = false)
    (hgate : e.expiryTime < now ∨ e.disputed = true) :
    Escrow.refund L e.sender tid now
      = .ok ({ L with
          entries := setEntry L.entries tid fun x => { x with refunded := true },
          balance := L.balance - e.amount }, some (e.sender, e.amount)) := by
  unfold Escrow.refund
  simp [hl, hc, hr, hgate]

theorem refund_error_of_claimed {L : Ledger} {tid : String} {e : Entry}
    (caller : String) (now : Nat)
    (hl : entriesLookup L.entries tid = some e) (hc : e.claimed = true) :
    Escrow.refund L caller tid now = .error .alreadyClaimed := by
  unfold Escrow.refund
  simp [hl, hc]

theorem refund_error_of_not_expired {L : Ledger} {tid : String} {e : Entry}
    (now : Nat)
    (hl : entriesLookup L.entries tid = some e)
    (hc : e.claimed = false) (hr : e.refunded = false)
    (hexp : ¬ e.expiryTime < now) (hd : e.disputed = false) :
    Escrow.refund L e.sender tid now = .error .transferNotExpired := by
  unfold Escrow.refund
  simp [hl, hc, hr, hexp, hd]

theorem refund_error_of_wrong_sender {L : Ledger} {tid : String} {e : Entry}
    (caller : String) (now : Nat)
    (hl : entriesLookup L.entries tid = some e)
    (hc : e.claimed = false) (hr : e.refunded = false)
    (hcaller : caller ≠ e.sender) :
    Escrow.refund L caller tid now = .error .unauthorizedSender := by
  unfold Escrow.refund
  simp [hl, hc, hr, hcaller]

theorem adminRelease_error_of_terminal {h : String → Nat} {L : Ledger}
    {tid : String} {e : Entry} (caller secret recipient : String) (now : Nat)
    (hl : entriesLookup L.entries tid = some e)
    (hterm : e.claimed = true ∨ e.refunded = true) :
    ∃ err, Escrow.adminRelease h L caller tid secret recipient now
      = .error err := by
  refine error_of_not_ok fun L2 p hok => ?_
  obtain ⟨e2, hl2, _, hc2, hr2, _⟩ := adminRelease_ok hok
  rw [hl] at hl2
  obtain rfl : e = e2 := by simpa using hl2
  rcases hterm with hc | hr
  · rw [hc2] at hc; exact absurd hc (by simp)
  · rw [hr2] at hr; exact absurd hr (by simp)

theorem claim_error_of_terminal {L : Ledger} {tid : String} {e : Entry}
    (recipient : String) (deadline : Nat) (sig : Sig) (now : Nat)
    (hl : entriesLookup L.entries tid = some e)
    (hterm : e.claimed = true ∨ e.refunded = true) :
    Escrow.claim L tid recipient deadline sig now
      = .error .transferAlreadyProcessed := by
  unfold Escrow.claim
  have hproc : (e.claimed || e.refunded) = true := by
    rcases hterm with hc | hr
    · simp [hc]
    · simp [hr]
  simp [hl, hproc]

/-! ## Claim C1 -/

/-- C1: for every sequence of ledger operations (deposit, release/claim,
refund, dispute, emergency release/refund) starting from the empty ledger,
every entry satisfies not (claimed and refunded) and the ledger's token
balance equals the sum of `amount` over all entries with
`claimed = refunded = false`; moreover, on any state satisfying the
invariant, a valid deposit increases the balance by exactly `amount`, the
matching release (either mode) or refund decreases it by exactly `amount`
and marks the entry, and after either one the other fails — never both. -/
theorem c1_ledger_invariant (h : String → Nat)
    (owner trustedSigner selfAddr : String) (chainId : Nat) (ops : List Op) :
    ((∀ kv ∈ (run h (initLedger owner trustedSigner selfAddr chainId) ops).entries,
        entryOk kv.2 = true)
      ∧ (run h (initLedger owner trustedSigner selfAddr chainId) ops).balance
        = activeSum (run h (initLedger owner trustedSigner selfAddr chainId) ops).entries)
    ∧ (∀ L : Ledger, L.good →
      (∀ caller tid amount commitment timeoutDays now L2 p,
        Escrow.deposit L caller tid amount commitment timeoutDays now = .ok (L2, p) →
        L2.balance = L.balance + amount)
      ∧ (∀ caller tid secret recipient now L2 p e,
        entriesLookup L.entries tid = some e →
        Escrow.adminRelease h L caller tid secret recipient now = .ok (L2, p) →
        L2.balance + e.amount = L.balance
        ∧ (∀ caller2 now2, ∃ err, Escrow.refund L2 caller2 tid now2 = .error err))
      ∧ (∀ tid recipient deadline sig now L2 p e,
        entriesLookup L.entries tid = some e →
        Escrow.claim L tid recipient deadline sig now = .ok (L2, p) →
        L2.balance + e.amount = L.balance
        ∧ (∀ caller2 now2, ∃ err, Escrow.refund L2 caller2 tid now2 = .error err))
      ∧ (∀ caller tid now L2 p e,
        entriesLookup L.entries tid = some e →
        Escrow.refund L caller tid now = .ok (L2, p) →
        L2.balance + e.amount = L.balance
        ∧ (∀ h2 caller2 secret2 recipient2 now2, ∃ err,
            Escrow.adminRelease h2 L2 caller2 tid secret2 recipient2 now2 = .error err)
        ∧ (∀ recipient2 deadline2 sig2 now2, ∃ err,
            Escrow.claim L2 tid recipient2 deadline2 sig2 now2 = .error err))) := by
  constructor
  · have hgood := run_good h ops _
      (initLedger_good owner trustedSigner selfAddr chainId)
    exact ⟨hgood.1, hgood.2.1⟩
  · intro L hg
    obtain ⟨hEntries, hBal, hNd⟩ := hg
    refine ⟨?_, ?_, ?_, ?_⟩
    · intro caller tid amount commitment timeoutDays now L2 p hok
      obtain ⟨_, _, _, _, hL2, _⟩ := deposit_ok hok
      rw [hL2]
    · intro caller tid secret recipient now L2 p e hl hok
      obtain ⟨e2, hl2, _, hc, hr, _, _, hL2, _⟩ := adminRelease_ok hok
      rw [hl] at hl2
      obtain rfl : e = e2 := by simpa using hl2
      have hle : activeAmount e ≤ activeSum L.entries := activeAmount_le_activeSum hl
      have hact : activeAmount e = e.amount := by simp [activeAmount, hc, hr]
      constructor
      · rw [hL2]
        show L.balance - e.amount + e.amount = L.balance
        omega
      · intro caller2 now2
        have hl3 : entriesLookup L2.entries tid = some { e with claimed := true } := by
          rw [hL2]
          exact entriesLookup_setEntry_self (fun x => { x with claimed := true }) hl
        exact ⟨.alreadyClaimed, refund_error_of_claimed caller2 now2 hl3 rfl⟩
    · intro tid recipient deadline sig now L2 p e hl hok
      obtain ⟨e2, hl2, hc, hr, _, _, _, hL2, _⟩ := claim_ok hok
      rw [hl] at hl2
      obtain rfl : e = e2 := by simpa using hl2
      have hle : activeAmount e ≤ activeSum L.entries := activeAmount_le_activeSum hl
      have hact : activeAmount e = e.amount := by simp [activeAmount, hc, hr]
      constructor
      · rw [hL2]
        show L.balance - e.amount + e.amount = L.balance
        omega
      · intro caller2 now2
        have hl3 : entriesLookup L2.entries tid = some { e with claimed := true } := by
          rw [hL2]
          exact entriesLookup_setEntry_self (fun x => { x with claimed := true }) hl
        exact ⟨.alreadyClaimed, refund_error_of_claimed caller2 now2 hl3 rfl⟩
    · intro caller tid now L2 p e hl hok
      obtain ⟨e2, hl2, hc, hr, _, _, hL2, _⟩ := refund_ok hok
      rw [hl] at hl2
      obtain rfl : e = e2 := by simpa using hl2
      have hle : activeAmount e ≤ activeSum L.entries := activeAmount_le_activeSum hl
      have hact : activeAmount e = e.amount := by simp [activeAmount, hc, hr]
      have hl3 : entriesLookup L2.entries tid = some { e with refunded := true } := by
        rw [hL2]
        exact entriesLookup_setEntry_self (fun x => { x with refunded := true }) hl
      refine ⟨?_, ?_, ?_⟩
      · rw [hL2]
        show L.balance - e.amount + e.amount = L.balance
        omega
      · intro h2 caller2 secret2 recipient2 now2
        exact adminRelease_error_of_terminal caller2 secret2 recipient2 now2 hl3
          (Or.inr rfl)
      · intro recipient2 deadline2 sig2 now2
        exact ⟨.transferAlreadyProcessed,
          claim_error_of_terminal recipient2 deadline2 sig2 now2 hl3 (Or.inr rfl)⟩

/-- Sample hash used to instantiate theorems quantified over the hash
function. -/
def sampleHash (s : String) : Nat := s.length

/-- Sample ledger with a single active secret-mode entry, for witnesses. -/
def sampleLedger : Ledger :=
  { owner := "own", trustedSigner := "auth", selfAddr := "esc", chainId := 1,
    entries := [("t1", ⟨"alice", 100, 1, 50, false, false, false⟩)],
    nonces := [], balance := 100 }

/-- C1 witness: the invariant and the deposit balance delta at concrete
inputs. -/
theorem c1_ledger_invariant_witness :
    (initLedger "own" "auth" "esc" 1).good
    ∧ ({ initLedger "own" "auth" "esc" 1 with
          entries := [("t1", (⟨"alice", 100, 5, 0 + 7 * 86400,
                               false, false, false⟩ : Entry))],
          balance := (initLedger "own" "auth" "esc" 1).balance + 100 } : Ledger).balance
      = (initLedger "own" "auth" "esc" 1).balance + 100 := by
  refine ⟨by decide, ?_⟩
  exact ((c1_ledger_invariant (fun _ => 0) "own" "auth" "esc" 1 []).2
    (initLedger "own" "auth" "esc" 1) (by decide)).1
    "alice" "t1" 100 5 7 0 _ none rfl

/-! ## Claim C3 -/

/-- C3: for every active escrow entry whose `expiryTime` has not passed,
the secret-release operation invoked by the privileged caller with a
`claimSecret` hashing to the stored commitment marks the entry claimed and
pays exactly `amount` to the given recipient; for every `claimSecret` whose
hash differs from the stored commitment the release fails (for any caller
and any time) and no funds move. -/
theorem c3_secret_release (h : String → Nat) (L : Ledger) (tid : String)
    (e : Entry) (secret recipient : String) (now : Nat)
    (hl : entriesLookup L.entries tid = some e)
    (hc : e.claimed = false) (hr : e.refunded = false)
    (hexp : ¬ e.expiryTime < now) :
    (h secret = e.claimSecretHash →
      Escrow.adminRelease h L L.owner tid secret recipient now
        = .ok ({ L with
            entries := setEntry L.entries tid fun x => { x with claimed := true },
            balance := L.balance - e.amount }, some (recipient, e.amount)))
    ∧ (∀ secret2 caller2 recipient2 now2, h secret2 ≠ e.claimSecretHash →
        ∃ err, Escrow.adminRelease h L caller2 tid secret2 recipient2 now2
          = .error err) := by
  constructor
  · intro hsec
    exact adminRelease_success secret recipient now hl hc hr hexp hsec
  · intro secret2 caller2 recipient2 now2 hne
    refine error_of_not_ok fun L2 p hok => ?_
    obtain ⟨e2, hl2, _, _, _, _, hsec2, _, _⟩ := adminRelease_ok hok
    rw [hl] at hl2
    obtain rfl : e = e2 := by simpa using hl2
    exact hne hsec2

/-- C3 witness: on `sampleLedger` (commitment 1 = `sampleHash "s"`), the
correct secret releases the funds to the recipient and a wrong secret
fails. -/
theorem c3_secret_release_witness :
    Escrow.adminRelease sampleHash sampleLedger "own" "t1" "s" "bob" 10
      = .ok ({ sampleLedger with
          entries := setEntry sampleLedger.entries "t1"
            fun x => { x with claimed := true },
          balance := sampleLedger.balance - 100 }, some ("bob", 100))
    ∧ (∃ err, Escrow.adminRelease sampleHash sampleLedger "own" "t1" "xx" "bob" 10
        = .error err) := by
  have H := c3_secret_release sampleHash sampleLedger "t1"
    ⟨"alice", 100, 1, 50, false, false, false⟩ "s" "bob" 10
    rfl rfl rfl (by decide)
  exact ⟨H.1 (by decide), H.2 "xx" "own" "bob" 10 (by decide)⟩

/-! ## Claim C4 -/

/-- C4: every successful signature-mode claim increments the recipient's
nonce; a signature valid for `(transferId A, recipient X)` is rejected when
submitted for `(transferId B, recipient X)` or for any other recipient, is
rejected on a second submission even for the same `(A, X)` pair, and any
signature whose deadline has passed is rejected. -/
theorem c4_signature_replay (L : Ledger) (tidA recipientX : String)
    (e : Entry) (deadline now : Nat)
    (hl : entriesLookup L.entries tidA = some e)
    (hc : e.claimed = false) (hr : e.refunded = false)
    (hexp : ¬ e.expiryTime < now) (hdl : ¬ deadline < now) :
    (∀ tid2 recip2 deadline2 sig2 now2 L2 p,
      Escrow.claim L tid2 recip2 deadline2 sig2 now2 = .ok (L2, p) →
      nonceOf L2.nonces recip2 = nonceOf L.nonces recip2 + 1)
    ∧ (∃ L2, Escrow.claim L tidA recipientX deadline
        ⟨L.trustedSigner, tidA, recipientX, deadline,
         nonceOf L.nonces recipientX, L.selfAddr, L.chainId⟩ now
        = .ok (L2, some (recipientX, e.amount))
      ∧ nonceOf L2.nonces recipientX = nonceOf L.nonces recipientX + 1
      ∧ (∀ deadline2 sig2 now2, ∃ err,
          Escrow.claim L2 tidA recipientX deadline2 sig2 now2 = .error err))
    ∧ (∀ tidB, tidB ≠ tidA → ∀ now2, ∃ err,
        Escrow.claim L tidB recipientX deadline
          ⟨L.trustedSigner, tidA, recipientX, deadline,
           nonceOf L.nonces recipientX, L.selfAddr, L.chainId⟩ now2 = .error err)
    ∧ (∀ Y, Y ≠ recipientX → ∀ now2, ∃ err,
        Escrow.claim L tidA Y deadline
          ⟨L.trustedSigner, tidA, recipientX, deadline,
           nonceOf L.nonces recipientX, L.selfAddr, L.chainId⟩ now2 = .error err)
    ∧ (∀ tid2 recip2 deadline2 sig2 now2, deadline2 < now2 → ∃ err,
        Escrow.claim L tid2 recip2 deadline2 sig2 now2 = .error err) := by
  refine ⟨?_, ?_, ?_, ?_, ?_⟩
  · intro tid2 recip2 deadline2 sig2 now2 L2 p hok
    obtain ⟨e2, _, _, _, _, _, _, hL2, _⟩ := claim_ok hok
    rw [hL2]
    exact nonceOf_setNonce_self ..
  · refine ⟨_, claim_success recipientX deadline now hl hc hr hexp hdl, ?_, ?_⟩
    · exact nonceOf_setNonce_self ..
    · intro deadline2 sig2 now2
      have hl3 : entriesLookup
          (setEntry L.entries tidA fun x => { x with claimed := true }) tidA
          = some { e with claimed := true } :=
        entriesLookup_setEntry_self (fun x => { x with claimed := true }) hl
      exact ⟨.transferAlreadyProcessed,
        claim_error_of_terminal recipientX deadline2 sig2 now2 hl3 (Or.inl rfl)⟩
  · intro tidB hne now2
    refine error_of_not_ok fun L2 p hok => ?_
    obtain ⟨e2, _, _, _, _, _, hsig, _, _⟩ := claim_ok hok
    have : tidA = tidB := congrArg Sig.transferId hsig
    exact hne this.symm
  · intro Y hne now2
    refine error_of_not_ok fun L2 p hok => ?_
    obtain ⟨e2, _, _, _, _, _, hsig, _, _⟩ := claim_ok hok
    have : recipientX = Y := congrArg Sig.recipient hsig
    exact hne this.symm
  · intro tid2 recip2 deadline2 sig2 now2 hpast
    refine error_of_not_ok fun L2 p hok => ?_
    obtain ⟨e2, _, _, _, _, hdl2, _, _, _⟩ := claim_ok hok
    exact hdl2 hpast

/-- C4 witness: on `sampleLedger`, the signature for `("t1", "bob")`
is rejected when submitted for another transfer identifier or another
recipient, and a past-deadline claim is rejected. -/
theorem c4_signature_replay_witness :
    (∃ err, Escrow.claim sampleLedger "t2" "bob" 20
      ⟨"auth", "t1", "bob", 20, 0, "esc", 1⟩ 7 = .error err)
    ∧ (∃ err, Escrow.claim sampleLedger "t1" "eve" 20
      ⟨"auth", "t1", "bob", 20, 0, "esc", 1⟩ 7 = .error err)
    ∧ (∃ err, Escrow.claim sampleLedger "t1" "bob" 20
      ⟨"auth", "t1", "bob", 20, 0, "esc", 1⟩ 30 = .error err) := by
  have H := c4_signature_replay sampleLedger "t1" "bob"
    ⟨"alice", 100, 1, 50, false, false, false⟩ 20 10
    rfl rfl rfl (by decide) (by decide)
  exact ⟨H.2.2.1 "t2" (by decide) 7, H.2.2.2.1 "eve" (by decide) 7,
    H.2.2.2.2 "t1" "bob" 20 ⟨"auth", "t1", "bob", 20, 0, "esc", 1⟩ 30 (by decide)⟩

/-! ## Claim C5 -/

/-- Concrete ledger holding an already-claimed entry, for the C5
counterexample. -/
def claimedLedger : Ledger :=
  { owner := "own", trustedSigner := "auth", selfAddr := "esc", chainId := 1,
    entries := [("t1", ⟨"alice", 50, 0, 10, true, false, false⟩)],
    nonces := [], balance := 0 }

/-- C5 counterexample: the claim quantifies over every escrow entry, but on
an already-claimed entry the refund fails even for the depositor after
`expiryTime` — the claimed/refunded terminal states are immutable, so the
"after expiryTime it succeeds regardless" part is false as stated. -/
theorem c5_counterexample :
    entriesLookup claimedLedger.entries "t1"
      = some ⟨"alice", 50, 0, 10, true, false, false⟩
    ∧ (10 : Nat) < 99
    ∧ Escrow.refund claimedLedger "alice" "t1" 99 = .error .alreadyClaimed
    ∧ exceptOk (Escrow.refund claimedLedger "alice" "t1" 99) = false := by
  exact ⟨rfl, by decide, rfl, rfl⟩

/-- C5 (amended): for every active (neither claimed nor refunded) escrow
entry, refund before `expiryTime` fails unless `disputed = true`; after
`expiryTime` it succeeds regardless of dispute state, returning exactly
`amount` to the depositor and marking the entry refunded; a dispute unlocks
refund before expiry; and it always fails when the caller is not the
entry's depositor. -/
theorem c5_refund_gating (L : Ledger) (tid : String) (e : Entry)
    (caller : String) (now : Nat)
    (hl : entriesLookup L.entries tid = some e)
    (hc : e.claimed = false) (hr : e.refunded = false) :
    (caller = e.sender → ¬ e.expiryTime < now → e.disputed = false →
      Escrow.refund L caller tid now = .error .transferNotExpired)
    ∧ (caller = e.sender → e.expiryTime < now →
      Escrow.refund L caller tid now
        = .ok ({ L with
            entries := setEntry L.entries tid fun x => { x with refunded := true },
            balance := L.balance - e.amount }, some (e.sender, e.amount)))
    ∧ (caller = e.sender → e.disputed = true →
      Escrow.refund L caller tid now
        = .ok ({ L with
            entries := setEntry L.entries tid fun x => { x with refunded := true },
            balance := L.balance - e.amount }, some (e.sender, e.amount)))
    ∧ (caller ≠ e.sender →
      Escrow.refund L caller tid now = .error .unauthorizedSender) := by
  refine ⟨?_, ?_, ?_, ?_⟩
  · intro hcall hexp hd
    subst hcall
    exact refund_error_of_not_expired now hl hc hr hexp hd
  · intro hcall hexp
    subst hcall
    exact refund_success now hl hc hr (Or.inl hexp)
  · intro hcall hd
    subst hcall
    exact refund_success now hl hc hr (Or.inr hd)
  · intro hcall
    exact refund_error_of_wrong_sender caller now hl hc hr hcall

/-- C5 witness: on `sampleLedger` (expiry 50), the depositor's refund at
time 10 fails with the not-yet-expired error, succeeds at time 99, and a
non-depositor refund fails. -/
theorem c5_refund_gating_witness :
    Escrow.refund sampleLedger "alice" "t1" 10 = .error .transferNotExpired
    ∧ Escrow.refund sampleLedger "alice" "t1" 99
      = .ok ({ sampleLedger with
          entries := setEntry sampleLedger.entries "t1"
            fun x => { x with refunded := true },
          balance := sampleLedger.balance - 100 }, some ("alice", 100))
    ∧ Escrow.refund sampleLedger "eve" "t1" 99 = .error .unauthorizedSender := by
  have H10 := c5_refund_gating sampleLedger "t1"
    ⟨"alice", 100, 1, 50, false, false, false⟩ "alice" 10 rfl rfl rfl
  have H99 := c5_refund_gating sampleLedger "t1"
    ⟨"alice", 100, 1, 50, false, false, false⟩ "alice" 99 rfl rfl rfl
  have HE := c5_refund_gating sampleLedger "t1"
    ⟨"alice", 100, 1, 50, false, false, false⟩ "eve" 99 rfl rfl rfl
  exact ⟨H10.1 rfl (by decide) rfl, H99.2.1 rfl (by decide),
    HE.2.2.2 (by decide)⟩

/-! ## Claim C6 -/

/-- C6: `deposit(transferId, amount, authorizationCommitment, timeout)`
fails exactly when the transferId already exists, `amount = 0`, or the
timeout lies outside `[1, 365]` days (zero rejected); on success it takes
`amount` into the ledger's custody and creates an entry whose `expiryTime`
is the deposit time plus the requested timeout. -/
theorem c6_deposit_validation (L : Ledger) (caller tid : String)
    (amount commitment timeoutDays now : Nat) :
    ((exceptOk (Escrow.deposit L caller tid amount commitment timeoutDays now)
        = false)
      ↔ ((entriesLookup L.entries tid).isSome = true ∨ amount = 0
          ∨ timeoutDays < 1 ∨ 365 < timeoutDays))
    ∧ (∀ L2 p,
        Escrow.deposit L caller tid amount commitment timeoutDays now
          = .ok (L2, p) →
        L2.balance = L.balance + amount
        ∧ entriesLookup L2.entries tid
          = some ⟨caller, amount, commitment, now + timeoutDays * 86400,
                  false, false, false⟩
        ∧ p = none) := by
  constructor
  · unfold Escrow.deposit
    split_ifs with h1 h2 h3
    · simpa [exceptOk] using Or.inl h1
    · simpa [exceptOk] using Or.inr (Or.inl h2)
    · simpa [exceptOk] using Or.inr (Or.inr h3)
    · constructor
      · intro hcontra
        simp [exceptOk] at hcontra
      · intro hcond
        rcases hcond with hh | hh | hh | hh
        · exact absurd hh h1
        · exact absurd hh h2
        · exact absurd (Or.inl hh) h3
        · exact absurd (Or.inr hh) h3
  · intro L2 p hok
    obtain ⟨hlook, _, _, _, hL2, hp⟩ := deposit_ok hok
    subst hL2
    refine ⟨rfl, ?_, hp⟩
    show entriesLookup ((tid, _) :: L.entries) tid = _
    simp [entriesLookup]

/-- C6 witness: a fresh deposit on the empty ledger succeeds with the right
expiry and balance; the validation iff at a zero amount. -/
theorem c6_deposit_validation_witness :
    (exceptOk (Escrow.deposit (initLedger "own" "auth" "esc" 1)
        "alice" "t9" 0 3 7 100) = false)
    ∧ ({ initLedger "own" "auth" "esc" 1 with
          entries := [("t9", (⟨"alice", 25, 3, 100 + 7 * 86400,
                               false, false, false⟩ : Entry))],
          balance := (initLedger "own" "auth" "esc" 1).balance + 25 } : Ledger).balance
      = (initLedger "own" "auth" "esc" 1).balance + 25 := by
  constructor
  · exact (c6_deposit_validation (initLedger "own" "auth" "esc" 1)
      "alice" "t9" 0 3 7 100).1.mpr (by decide)
  · exact ((c6_deposit_validation (initLedger "own" "auth" "esc" 1)
      "alice" "t9" 25 3 7 100).2 _ none rfl).1

/-! ## Coordinator (embedded from the TypeScript route handlers) -/

/-- Lowercasing, as used by the release route's identity comparison
(`toLowerCase()` on both sides) and by `requireEmailMatch` in
`src/lib/auth.ts`. -/
def lowerStr (s : String) : String := ⟨s.data.map Char.toLower⟩

/-- Status of a `PendingTransfer`, from `src/lib/models` usage:
`pending | claimed | refunded | expired`. -/
inductive TransferStatus where
  | pending
  | claimed
  | refunded
  | expired
  deriving DecidableEq, Repr

/-- The coordinator's persisted pending-transfer record, with the fields
the two route handlers read (`transferId` is the lookup key). -/
structure PendingTransfer where
  senderEmail : String
  recipientEmail : String
  amount : String
  claimToken : String
  status : TransferStatus
  expiryDate : Option Nat
  deriving DecidableEq, Repr

/-- A user record as read by the release route (`getUserByUserId`). -/
structure UserRec where
  userId : String
  email : String
  walletAddress : Option String
  deriving DecidableEq, Repr

/-- The authenticated end user returned by `validateCDPAuth` (identity
verified from the access token). -/
structure CDPUser where
  userId : String
  deriving DecidableEq, Repr

/-- A database write performed by a route handler. -/
inductive DbWrite where
  | setStatus (transferId : String) (status : TransferStatus) (txHash : String)
  | addTransaction (userId userEmail counterpartyEmail amount txHash
      transferId : String)
  deriving DecidableEq, Repr

/-- Outcome of a route handler: HTTP status, success flag, error message,
the database writes performed, whether the on-ledger release transaction
was submitted, and the claim secret handed to the ledger path (if any). -/
structure RouteResult where
  status : Nat
  ok : Bool
  errorMsg : Option String
  writes : List DbWrite
  escrowCalled : Bool
  escrowSecret : Option String
  deriving DecidableEq, Repr

/-- Expiry test of the release route (line 115): only checked when
`expiryDate` is set. -/
def expiredAt (expiryDate : Option Nat) (now : Nat) : Bool :=
  match expiryDate with
  | some d => decide (now > d)
  | none => false

/-- An error response: no writes, no ledger call. -/
def errResult (status : Nat) (msg : String) : RouteResult :=
  { status := status, ok := false, errorMsg := some msg, writes := [],
    escrowCalled := false, escrowSecret := none }

/-- Environment of the admin-release handler: the outcome of
`validateCDPAuth`, whether `ADMIN_WALLET_PRIVATE_KEY` is configured, the
database lookups, the clock, and the outcome of the admin wallet's
`sendTransaction`. -/
structure ReleaseEnv where
  auth : Option CDPUser
  adminKeyConfigured : Bool
  users : String → Option UserRec
  transfer : String → Option PendingTransfer
  now : Nat
  chainOk : Bool
  txHash : String

/-- Body of a release request (zod schema `AdminReleaseRequestSchema`):
`transferId`, `claimToken`, `userId`, each required non-empty. -/
structure ReleaseReq where
  transferId : String
  claimToken : String
  userId : String
  deriving DecidableEq, Repr

/-- The gasless-release handler `POST` of
`src/app/api/admin/release/route.ts`, step for step: CDP authentication;
admin key configured; zod body validation; `requireUserMatch` of the
authenticated userId against the request's `userId`; `getUserByUserId`;
`getPendingTransfer`; recipient-email versus claimer-email comparison
(lowercased, line 79); claim-token comparison; `status = pending` check;
expiry check (only when `expiryDate` is set); wallet-address check; then
the ledger release with `claimSecret = recipientEmail ++ claimToken`
(line 142), and the two database writes only after `sendTransaction`
succeeds.  The chain-failure catch branches differ only in message and
status; they are collapsed into one 500 response with no writes. -/
def adminReleasePOST (env : ReleaseEnv) (req : ReleaseReq) : RouteResult :=
  match env.auth with
  | none => errResult 401 "Authentication required"
  | some a =>
    if env.adminKeyConfigured = false then
      errResult 500 "Admin wallet not configured"
    else if req.transferId = "" ∨ req.claimToken = "" ∨ req.userId = "" then
      errResult 400 "Invalid request data"
    else if a.userId ≠ req.userId then
      errResult 403 "Authentication mismatch - you can only claim your own transfers"
    else match env.users req.userId with
    | none => errResult 400 "User not found"
    | some claimer =>
      match env.transfer req.transferId with
      | none => errResult 404 "Transfer not found"
      | some t =>
        if lowerStr t.recipientEmail ≠ lowerStr claimer.email then
          errResult 403 "Transfer not intended for this user"
        else if t.claimToken ≠ req.claimToken then
          errResult 403 "Invalid claim token"
        else if t.status ≠ .pending then
          errResult 400 "Transfer has already been claimed or expired"
        else if expiredAt t.expiryDate env.now then
          errResult 400 "Transfer has expired"
        else match claimer.walletAddress with
        | none => errResult 400 "User does not have a wallet address set up"
        | some _ =>
          if env.chainOk then
            { status := 200, ok := true, errorMsg := none,
              writes := [.setStatus req.transferId .claimed env.txHash,
                         .addTransaction claimer.userId claimer.email
                           t.senderEmail t.amount env.txHash req.transferId],
              escrowCalled := true,
              escrowSecret := some (t.recipientEmail ++ req.claimToken) }
          else
            { status := 500, ok := false,
              errorMsg := some "Failed to release funds",
              writes := [], escrowCalled := true,
              escrowSecret := some (t.recipientEmail ++ req.claimToken) }

/-- Follows the spec sentence's check order for the gasless release (§4.4:
existence and `status = pending` first, then identity, then claim token,
then expiry), over the same environment, for comparison with
`adminReleasePOST`. -/
def releaseSpecOrder (env : ReleaseEnv) (req : ReleaseReq) : RouteResult :=
  match env.auth with
  | none => errResult 401 "Authentication required"
  | some a =>
    if env.adminKeyConfigured = false then
      errResult 500 "Admin wallet not configured"
    else if req.transferId = "" ∨ req.claimToken = "" ∨ req.userId = "" then
      errResult 400 "Invalid request data"
    else if a.userId ≠ req.userId then
      errResult 403 "Authentication mismatch - you can only claim your own transfers"
    else match env.users req.userId with
    | none => errResult 400 "User not found"
    | some claimer =>
      match env.transfer req.transferId with
      | none => errResult 404 "Transfer not found"
      | some t =>
        if t.status ≠ .pending then
          errResult 400 "Transfer has already been claimed or expired"
        else if lowerStr t.recipientEmail ≠ lowerStr claimer.email then
          errResult 403 "Transfer not intended for this user"
        else if t.claimToken ≠ req.claimToken then
          errResult 403 "Invalid claim token"
        else if expiredAt t.expiryDate env.now then
          errResult 400 "Transfer has expired"
        else match claimer.walletAddress with
        | none => errResult 400 "User does not have a wallet address set up"
        | some _ =>
          if env.chainOk then
            { status := 200, ok := true, errorMsg := none,
              writes := [.setStatus req.transferId .claimed env.txHash,
                         .addTransaction claimer.userId claimer.email
                           t.senderEmail t.amount env.txHash req.transferId],
              escrowCalled := true,
              escrowSecret := some (t.recipientEmail ++ req.claimToken) }
          else
            { status := 500, ok := false,
              errorMsg := some "Failed to release funds",
              writes := [], escrowCalled := true,
              escrowSecret := some (t.recipientEmail ++ req.claimToken) }

/-- Modelled from the spec: the deposit-side claim secret of §4.2,
`claimSecret = normalize(recipientIdentity) ‖ randomToken`, whose hash is
the on-ledger commitment.  The deposit-side constructor
(`src/lib/simple-escrow.ts`) is absent from the repository snapshot;
normalization is lowercasing, as in `requireEmailMatch` and the release
route's identity comparison. -/
def specClaimSecret (recipientEmail token : String) : String :=
  lowerStr recipientEmail ++ token

/-- Environment of the refund handler: the database lookups and the
clock.  The handler reads no authentication data at all. -/
structure RefundEnv where
  transfer : String → Option PendingTransfer
  userByEmail : String → Option UserRec
  now : Nat

/-- Body of a refund request (zod schema `RefundRequestSchema`):
`transferId` and `senderEmail`, required non-empty. -/
structure RefundReq where
  transferId : String
  senderEmail : String
  deriving DecidableEq, Repr

/-- The refund handler `POST` of `src/app/api/refund/route.ts`, step for
step: zod body validation; `getPendingTransfer`; exact (case-sensitive)
sender-email comparison; `status = pending` check with per-status error
messages; then it marks the transfer refunded with the literal
`simulated-refund-hash` (the on-chain refund is not executed — the code
comment says the process is simulated) and records a refund transaction
when the sender has an account.  No authentication, no admin check, and no
expiry check appear anywhere in the handler. -/
def refundPOST (env : RefundEnv) (req : RefundReq) : RouteResult :=
  if req.transferId = "" ∨ req.senderEmail = "" then
    errResult 400 "Invalid request data"
  else match env.transfer req.transferId with
  | none => errResult 404 "Transfer not found"
  | some t =>
    if t.senderEmail ≠ req.senderEmail then
      errResult 403 "Unauthorized: You can only refund your own transfers"
    else if t.status = .claimed then
      errResult 400 "This transfer has already been claimed and cannot be refunded"
    else if t.status = .refunded then
      errResult 400 "This transfer has already been refunded"
    else if t.status = .expired then
      errResult 400 "This transfer has expired"
    else
      { status := 200, ok := true, errorMsg := none,
        writes := [.setStatus req.transferId .refunded "simulated-refund-hash"]
          ++ (match env.userByEmail req.senderEmail with
              | some u => [.addTransaction u.userId req.senderEmail
                  t.recipientEmail t.amount "simulated-refund-hash"
                  req.transferId]
              | none => []),
        escrowCalled := false, escrowSecret := none }

/-- The successful-release response together with its database writes. -/
def releaseSuccess (env : ReleaseEnv) (req : ReleaseReq)
    (claimer : UserRec) (t : PendingTransfer) : RouteResult :=
  { status := 200, ok := true, errorMsg := none,
    writes := [.setStatus req.transferId .claimed env.txHash,
               .addTransaction claimer.userId claimer.email
                 t.senderEmail t.amount env.txHash req.transferId],
    escrowCalled := true,
    escrowSecret := some (t.recipientEmail ++ req.claimToken) }

/-- The response when the ledger release transaction fails: no writes. -/
def releaseChainFail (req : ReleaseReq) (t : PendingTransfer) : RouteResult :=
  { status := 500, ok := false, errorMsg := some "Failed to release funds",
    writes := [], escrowCalled := true,
    escrowSecret := some (t.recipientEmail ++ req.claimToken) }

theorem adminReleasePOST_shape (env : ReleaseEnv) (req : ReleaseReq) :
    (∃ s m, adminReleasePOST env req = errResult s m)
    ∨ (∃ a claimer t,
        env.auth = some a
        ∧ env.adminKeyConfigured = true
        ∧ ¬(req.transferId = "" ∨ req.claimToken = "" ∨ req.userId = "")
        ∧ a.userId = req.userId
        ∧ env.users req.userId = some claimer
        ∧ env.transfer req.transferId = some t
        ∧ lowerStr t.recipientEmail = lowerStr claimer.email
        ∧ t.claimToken = req.claimToken
        ∧ t.status = .pending
        ∧ expiredAt t.expiryDate env.now = false
        ∧ claimer.walletAddress.isSome = true
        ∧ ((env.chainOk = true
            ∧ adminReleasePOST env req = releaseSuccess env req claimer t)
          ∨ (env.chainOk = false
            ∧ adminReleasePOST env req = releaseChainFail req t))) := by
  rcases hA : env.auth with _ | a
  · exact Or.inl ⟨401, "Authentication required", by simp [adminReleasePOST, hA]⟩
  · by_cases h1 : env.adminKeyConfigured = false
    · exact Or.inl ⟨500, "Admin wallet not configured", by
        simp [adminReleasePOST, hA, h1]⟩
    · by_cases h2 : req.transferId = "" ∨ req.claimToken = "" ∨ req.userId = ""
      · exact Or.inl ⟨400, "Invalid request data", by
          simp [adminReleasePOST, hA, h1, h2]⟩
      · by_cases h3 : a.userId ≠ req.userId
        · exact Or.inl
            ⟨403, "Authentication mismatch - you can only claim your own transfers", by
              simp [adminReleasePOST, hA, h1, h2, h3]⟩
        · rcases hU : env.users req.userId with _ | claimer
          · exact Or.inl ⟨400, "User not found", by
              simp [adminReleasePOST, hA, h1, h2, h3, hU]⟩
          · rcases hT : env.transfer req.transferId with _ | t
            · exact Or.inl ⟨404, "Transfer not found", by
                simp [adminReleasePOST, hA, h1, h2, h3, hU, hT]⟩
            · by_cases h4 : lowerStr t.recipientEmail ≠ lowerStr claimer.email
              · exact Or.inl ⟨403, "Transfer not intended for this user", by
                  simp [adminReleasePOST, hA, h1, h2, h3, hU, hT, h4]⟩
              · by_cases h5 : t.claimToken ≠ req.claimToken
                · exact Or.inl ⟨403, "Invalid claim token", by
                    simp [adminReleasePOST, hA, h1, h2, h3, hU, hT, h4, h5]⟩
                · by_cases h6 : t.status ≠ TransferStatus.pending
                  · exact Or.inl
                      ⟨400, "Transfer has already been claimed or expired", by
                        simp [adminReleasePOST, hA, h1, h2, h3, hU, hT, h4, h5, h6]⟩
                  · by_cases h7 : expiredAt t.expiryDate env.now = true
                    · exact Or.inl ⟨400, "Transfer has expired", by
                        simp [adminReleasePOST, hA, h1, h2, h3, hU, hT, h4, h5,
                          h6, h7]⟩
                    · rcases hW : claimer.walletAddress with _ | w
                      · exact Or.inl
                          ⟨400, "User does not have a wallet address set up", by
                            simp [adminReleasePOST, hA, h1, h2, h3, hU, hT, h4,
                              h5, h6, h7, hW]⟩
                      · by_cases h8 : env.chainOk = true
                        · refine Or.inr ⟨a, claimer, t, rfl, ?_, h2, ?_, rfl, rfl,
                            ?_, ?_, ?_, ?_, ?_, Or.inl ⟨h8, ?_⟩⟩
                          · cases hval : env.adminKeyConfigured with
                            | false => exact absurd hval h1
                            | true => rfl
                          · by_cases hEq : a.userId = req.userId
                            · exact hEq
                            · exact absurd hEq h3
                          · by_cases hEq : lowerStr t.recipientEmail
                                = lowerStr claimer.email
                            · exact hEq
                            · exact absurd hEq h4
                          · by_cases hEq : t.claimToken = req.claimToken
                            · exact hEq
                            · exact absurd hEq h5
                          · by_cases hEq : t.status = TransferStatus.pending
                            · exact hEq
                            · exact absurd hEq h6
                          · cases hval : expiredAt t.expiryDate env.now with
                            | true => exact absurd hval h7
                            | false => rfl
                          · rw [hW]; rfl
                          · simp [adminReleasePOST, releaseSuccess, hA, h1, h2,
                              h3, hU, hT, h4, h5, h6, h7, hW, h8]
                        · refine Or.inr ⟨a, claimer, t, rfl, ?_, h2, ?_, rfl, rfl,
                            ?_, ?_, ?_, ?_, ?_, Or.inr ⟨?_, ?_⟩⟩
                          · cases hval : env.adminKeyConfigured with
                            | false => exact absurd hval h1
                            | true => rfl
                          · by_cases hEq : a.userId = req.userId
                            · exact hEq
                            · exact absurd hEq h3
                          · by_cases hEq : lowerStr t.recipientEmail
                                = lowerStr claimer.email
                            · exact hEq
                            · exact absurd hEq h4
                          · by_cases hEq : t.claimToken = req.claimToken
                            · exact hEq
                            · exact absurd hEq h5
                          · by_cases hEq : t.status = TransferStatus.pending
                            · exact hEq
                            · exact absurd hEq h6
                          · cases hval : expiredAt t.expiryDate env.now with
                            | true => exact absurd hval h7
                            | false => rfl
                          · rw [hW]; rfl
                          · cases hval : env.chainOk with
                            | true => exact absurd hval h8
                            | false => rfl
                          · simp [adminReleasePOST, releaseChainFail, hA, h1,
                              h2, h3, hU, hT, h4, h5, h6, h7, hW, h8]

/-! ## Claim C10 -/

/-- C10: whenever the gasless-release handler returns an error, it performs
no database writes — the pending transfer is left unchanged; the status
update to `claimed` and the settlement transaction record happen only on
the success response, which requires the ledger release transaction to have
been submitted successfully. -/
theorem c10_no_writes_on_error (env : ReleaseEnv) (req : ReleaseReq) :
    ((adminReleasePOST env req).ok = false →
      (adminReleasePOST env req).writes = [])
    ∧ ((adminReleasePOST env req).writes ≠ [] →
      (adminReleasePOST env req).ok = true
      ∧ (adminReleasePOST env req).escrowCalled = true
      ∧ env.chainOk = true)
    ∧ ((adminReleasePOST env req).ok = true →
      ∃ claimer t, env.users req.userId = some claimer
        ∧ env.transfer req.transferId = some t
        ∧ env.chainOk = true
        ∧ (adminReleasePOST env req).writes
          = [.setStatus req.transferId .claimed env.txHash,
             .addTransaction claimer.userId claimer.email t.senderEmail
               t.amount env.txHash req.transferId]) := by
  rcases adminReleasePOST_shape env req with ⟨s, m, hres⟩ |
    ⟨a, claimer, t, _, _, _, _, hU, hT, _, _, _, _, _,
      ⟨hchain, hres⟩ | ⟨hchain, hres⟩⟩
  · rw [hres]
    refine ⟨fun _ => rfl, fun hw => absurd rfl hw, fun hok => ?_⟩
    simp [errResult] at hok
  · rw [hres]
    exact ⟨fun hok => by simp [releaseSuccess] at hok,
      fun _ => ⟨rfl, rfl, hchain⟩,
      fun _ => ⟨claimer, t, hU, hT, hchain, rfl⟩⟩
  · rw [hres]
    refine ⟨fun _ => rfl, fun hw => absurd rfl hw, fun hok => ?_⟩
    simp [releaseChainFail] at hok

/-- Concrete environment for the release-route witnesses: authenticated
user `u1` with email `bob@x.com`, a pending transfer `t1` for that email
with claim token `tok1`, clock before expiry, successful chain call. -/
def sampleReleaseEnv : ReleaseEnv :=
  { auth := some ⟨"u1"⟩, adminKeyConfigured := true,
    users := fun uid =>
      if uid = "u1" then some ⟨"u1", "bob@x.com", some "0xbob"⟩ else none,
    transfer := fun tid =>
      if tid = "t1" then
        some ⟨"alice@x.com", "bob@x.com", "25", "tok1", .pending, some 1000⟩
      else none,
    now := 5, chainOk := true, txHash := "0xhash" }

/-- The matching release request. -/
def sampleReleaseReq : ReleaseReq := ⟨"t1", "tok1", "u1"⟩

/-- C10 witness: on the sample environment the handler succeeds, and the
success conjunct yields exactly the status-update and settlement writes. -/
theorem c10_no_writes_on_error_witness :
    ∃ claimer t,
      sampleReleaseEnv.users sampleReleaseReq.userId = some claimer
      ∧ sampleReleaseEnv.transfer sampleReleaseReq.transferId = some t
      ∧ sampleReleaseEnv.chainOk = true
      ∧ (adminReleasePOST sampleReleaseEnv sampleReleaseReq).writes
        = [.setStatus sampleReleaseReq.transferId .claimed
             sampleReleaseEnv.txHash,
           .addTransaction claimer.userId claimer.email t.senderEmail
             t.amount sampleReleaseEnv.txHash sampleReleaseReq.transferId] :=
  (c10_no_writes_on_error sampleReleaseEnv sampleReleaseReq).2.2 (by decide)

/-! ## Claim C2 -/

/-- Environment with a transfer that is already claimed and whose stored
token differs from the request's, isolating the check-order question. -/
def claimedTokenMismatchEnv : ReleaseEnv :=
  { auth := some ⟨"u1"⟩, adminKeyConfigured := true,
    users := fun uid =>
      if uid = "u1" then some ⟨"u1", "bob@x.com", some "0xbob"⟩ else none,
    transfer := fun tid =>
      if tid = "t1" then
        some ⟨"alice@x.com", "bob@x.com", "25", "tok1", .claimed, some 1000⟩
      else none,
    now := 5, chainOk := true, txHash := "0xhash" }

/-- C2 counterexample: the claim states the checks run in the order
"exists and status pending; identity; token; expiry", but the handler
checks the claim token before the pending status.  On a transfer that is
already claimed and a wrong token, the handler answers 403 "Invalid claim
token" while the spec-ordered variant answers 400 for the non-pending
status — the two disagree, so the claimed order is not the code's order. -/
theorem c2_counterexample :
    adminReleasePOST claimedTokenMismatchEnv ⟨"t1", "wrong", "u1"⟩
      = errResult 403 "Invalid claim token"
    ∧ releaseSpecOrder claimedTokenMismatchEnv ⟨"t1", "wrong", "u1"⟩
      = errResult 400 "Transfer has already been claimed or expired"
    ∧ adminReleasePOST claimedTokenMismatchEnv ⟨"t1", "wrong", "u1"⟩
      ≠ releaseSpecOrder claimedTokenMismatchEnv ⟨"t1", "wrong", "u1"⟩ := by
  exact ⟨rfl, rfl, by decide⟩

/-- C2 (amended): the gasless release validates, in this order: the
transfer exists; the authenticated caller's identity (the stored email of
the user record of the token-verified userId, the client-supplied `userId`
being required to equal it) matches the transfer's `recipientEmail`
case-insensitively; the supplied `claimToken` equals the stored token; the
status is `pending`; the `expiryDate` has not passed — and the ledger's
secret-release path is invoked only when all of these hold; any check
failure returns an error without invoking the ledger. -/
theorem c2_release_check_order (env : ReleaseEnv) (req : ReleaseReq)
    (a : CDPUser) (claimer : UserRec)
    (hA : env.auth = some a) (hkey : env.adminKeyConfigured = true)
    (hz : ¬(req.transferId = "" ∨ req.claimToken = "" ∨ req.userId = ""))
    (hum : a.userId = req.userId)
    (hU : env.users req.userId = some claimer) :
    (env.transfer req.transferId = none →
      adminReleasePOST env req = errResult 404 "Transfer not found")
    ∧ (∀ t, env.transfer req.transferId = some t →
        ((lowerStr t.recipientEmail ≠ lowerStr claimer.email →
          adminReleasePOST env req
            = errResult 403 "Transfer not intended for this user")
        ∧ (lowerStr t.recipientEmail = lowerStr claimer.email →
          t.claimToken ≠ req.claimToken →
          adminReleasePOST env req = errResult 403 "Invalid claim token")
        ∧ (lowerStr t.recipientEmail = lowerStr claimer.email →
          t.claimToken = req.claimToken → t.status ≠ .pending →
          adminReleasePOST env req
            = errResult 400 "Transfer has already been claimed or expired")
        ∧ (lowerStr t.recipientEmail = lowerStr claimer.email →
          t.claimToken = req.claimToken → t.status = .pending →
          expiredAt t.expiryDate env.now = true →
          adminReleasePOST env req = errResult 400 "Transfer has expired")))
    ∧ ((adminReleasePOST env req).escrowCalled = true →
      ∃ a2 u t, env.auth = some a2
        ∧ a2.userId = req.userId
        ∧ env.users req.userId = some u
        ∧ env.transfer req.transferId = some t
        ∧ lowerStr t.recipientEmail = lowerStr u.email
        ∧ t.claimToken = req.claimToken
        ∧ t.status = .pending
        ∧ expiredAt t.expiryDate env.now = false) := by
  refine ⟨?_, ?_, ?_⟩
  · intro hT
    simp [adminReleasePOST, hA, hkey, hz, hum, hU, hT]
  · intro t hT
    refine ⟨?_, ?_, ?_, ?_⟩
    · intro hid
      simp [adminReleasePOST, hA, hkey, hz, hum, hU, hT, hid]
    · intro hid htok
      simp [adminReleasePOST, hA, hkey, hz, hum, hU, hT, hid, htok]
    · intro hid htok hst
      simp [adminReleasePOST, hA, hkey, hz, hum, hU, hT, hid, htok, hst]
    · intro hid htok hst hexp
      simp [adminReleasePOST, hA, hkey, hz, hum, hU, hT, hid, htok, hst, hexp]
  · intro hesc
    rcases adminReleasePOST_shape env req with ⟨s, m, hres⟩ |
      ⟨a2, claimer2, t, hA2, _, _, hum2, hU2, hT2, hid2, htok2, hst2, hexp2,
        _, _⟩
    · rw [hres] at hesc
      simp [errResult] at hesc
    · exact ⟨a2, claimer2, t, hA2, hum2, hU2, hT2, hid2, htok2, hst2, hexp2⟩

/-- C2 witness: on the sample environment with a wrong claim token, the
token check fires with its 403 error. -/
theorem c2_release_check_order_witness :
    adminReleasePOST sampleReleaseEnv ⟨"t1", "bad", "u1"⟩
      = errResult 403 "Invalid claim token" :=
  (((c2_release_check_order sampleReleaseEnv ⟨"t1", "bad", "u1"⟩ ⟨"u1"⟩
      ⟨"u1", "bob@x.com", some "0xbob"⟩ rfl rfl (by decide) rfl rfl).2.1
    ⟨"alice@x.com", "bob@x.com", "25", "tok1", .pending, some 1000⟩ rfl).2.1
    (by decide) (by decide))

/-! ## Claim C8 -/

/-- Environment identical to the sample one except the transfer is already
claimed. -/
def alreadyClaimedEnv : ReleaseEnv :=
  { auth := some ⟨"u1"⟩, adminKeyConfigured := true,
    users := fun uid =>
      if uid = "u1" then some ⟨"u1", "bob@x.com", some "0xbob"⟩ else none,
    transfer := fun tid =>
      if tid = "t1" then
        some ⟨"alice@x.com", "bob@x.com", "25", "tok1", .claimed, some 1000⟩
      else none,
    now := 5, chainOk := true, txHash := "0xhash" }

/-- C8 counterexample: a second identical release request after a
successful claim (transfer status `claimed`, everything else valid) is
answered with a 400 error response, not with the already-claimed outcome
as success — the handler surfaces it as a fault. -/
theorem c8_counterexample :
    (alreadyClaimedEnv.transfer "t1").map PendingTransfer.status
      = some .claimed
    ∧ adminReleasePOST alreadyClaimedEnv sampleReleaseReq
      = errResult 400 "Transfer has already been claimed or expired"
    ∧ (adminReleasePOST alreadyClaimedEnv sampleReleaseReq).ok = false
    ∧ (adminReleasePOST alreadyClaimedEnv sampleReleaseReq).escrowCalled
      = false := by
  exact ⟨rfl, rfl, rfl, rfl⟩

/-- C8 (amended): a release request for a transfer that is no longer
pending — in particular one already claimed — is rejected with a 400 error
response ("Transfer has already been claimed or expired") before the
ledger is invoked, so no funds move again; the handler does not convert
the request into a success response. -/
theorem c8_already_claimed_rejected (env : ReleaseEnv) (req : ReleaseReq)
    (a : CDPUser) (claimer : UserRec) (t : PendingTransfer)
    (hA : env.auth = some a) (hkey : env.adminKeyConfigured = true)
    (hz : ¬(req.transferId = "" ∨ req.claimToken = "" ∨ req.userId = ""))
    (hum : a.userId = req.userId)
    (hU : env.users req.userId = some claimer)
    (hT : env.transfer req.transferId = some t)
    (hid : lowerStr t.recipientEmail = lowerStr claimer.email)
    (htok : t.claimToken = req.claimToken)
    (hst : t.status = .claimed) :
    adminReleasePOST env req
      = errResult 400 "Transfer has already been claimed or expired"
    ∧ (adminReleasePOST env req).ok = false
    ∧ (adminReleasePOST env req).escrowCalled = false
    ∧ (adminReleasePOST env req).writes = [] := by
  have hne : t.status ≠ TransferStatus.pending := by
    rw [hst]
    exact fun hc => TransferStatus.noConfusion hc
  have hres : adminReleasePOST env req
      = errResult 400 "Transfer has already been claimed or expired" := by
    simp [adminReleasePOST, hA, hkey, hz, hum, hU, hT, hid, htok, hne]
  exact ⟨hres, by rw [hres]; rfl, by rw [hres]; rfl, by rw [hres]; rfl⟩

/-- C8 witness: the amended rejection at the concrete already-claimed
environment. -/
theorem c8_already_claimed_rejected_witness :
    adminReleasePOST alreadyClaimedEnv sampleReleaseReq
      = errResult 400 "Transfer has already been claimed or expired"
    ∧ (adminReleasePOST alreadyClaimedEnv sampleReleaseReq).escrowCalled
      = false :=
  ⟨(c8_already_claimed_rejected alreadyClaimedEnv sampleReleaseReq ⟨"u1"⟩
      ⟨"u1", "bob@x.com", some "0xbob"⟩
      ⟨"alice@x.com", "bob@x.com", "25", "tok1", .claimed, some 1000⟩
      rfl rfl (by decide) rfl rfl rfl rfl rfl rfl).1,
   (c8_already_claimed_rejected alreadyClaimedEnv sampleReleaseReq ⟨"u1"⟩
      ⟨"u1", "bob@x.com", some "0xbob"⟩
      ⟨"alice@x.com", "bob@x.com", "25", "tok1", .claimed, some 1000⟩
      rfl rfl (by decide) rfl rfl rfl rfl rfl rfl).2.2.1⟩

/-! ## Claim C9 -/

/-- Sample hash over character codes, exhibiting that two distinct secrets
hash differently. -/
def hashSum (s : String) : Nat := (s.data.map Char.toNat).sum

/-- Environment whose stored recipient email is not in normalized
(lowercase) form; the case-insensitive identity check still passes for the
claimer's lowercase email. -/
def mixedCaseEnv : ReleaseEnv :=
  { auth := some ⟨"u1"⟩, adminKeyConfigured := true,
    users := fun uid =>
      if uid = "u1" then some ⟨"u1", "bob@example.com", some "0xbob"⟩ else none,
    transfer := fun tid =>
      if tid = "t1" then
        some ⟨"alice@x.com", "Bob@Example.com", "25", "tok1", .pending,
              some 1000⟩
      else none,
    now := 5, chainOk := true, txHash := "0xhash" }

/-- C9 counterexample: at release the coordinator concatenates the stored
recipient email verbatim with the presented token (line 142), applying no
normalization, so for a stored identity that is not already lowercase the
reconstructed secret differs from the spec's
`normalize(recipientIdentity) ‖ token` — and hence does not hash to the
commitment computed from the normalized secret (shown for `hashSum`). -/
theorem c9_counterexample :
    (adminReleasePOST mixedCaseEnv sampleReleaseReq).escrowSecret
      = some "Bob@Example.comtok1"
    ∧ specClaimSecret "Bob@Example.com" "tok1" = "bob@example.comtok1"
    ∧ ("Bob@Example.comtok1" : String) ≠ "bob@example.comtok1"
    ∧ hashSum "Bob@Example.comtok1" ≠ hashSum "bob@example.comtok1" := by
  exact ⟨by decide, by decide, by decide, by decide⟩

/-- C9 (amended): the deposit-side commitment is
`hash(normalize(recipientIdentity) ‖ claimToken)` per the spec, and the
ledger's deposit receives only that commitment, never the plaintext; but at
release the coordinator reconstructs `recipientIdentity ‖ claimToken` from
the stored identity verbatim, without normalization, so the reconstruction
equals — and hashes to — the spec's claim secret exactly when the stored
recipient identity is already in normalized (lowercase) form. -/
theorem c9_claim_secret_reconstruction (env : ReleaseEnv) (req : ReleaseReq)
    (a : CDPUser) (claimer : UserRec) (t : PendingTransfer) (w : String)
    (hA : env.auth = some a) (hkey : env.adminKeyConfigured = true)
    (hz : ¬(req.transferId = "" ∨ req.claimToken = "" ∨ req.userId = ""))
    (hum : a.userId = req.userId)
    (hU : env.users req.userId = some claimer)
    (hT : env.transfer req.transferId = some t)
    (hid : lowerStr t.recipientEmail = lowerStr claimer.email)
    (htok : t.claimToken = req.claimToken)
    (hst : t.status = .pending)
    (hexp : expiredAt t.expiryDate env.now = false)
    (hW : claimer.walletAddress = some w) :
    (adminReleasePOST env req).escrowSecret
      = some (t.recipientEmail ++ req.claimToken)
    ∧ (lowerStr t.recipientEmail = t.recipientEmail →
      (adminReleasePOST env req).escrowSecret
        = some (specClaimSecret t.recipientEmail req.claimToken)
      ∧ ∀ h : String → Nat,
        h (t.recipientEmail ++ req.claimToken)
          = h (specClaimSecret t.recipientEmail req.claimToken)) := by
  have hne : t.status ≠ TransferStatus.pending → False := fun hc => hc hst
  have hsec : (adminReleasePOST env req).escrowSecret
      = some (t.recipientEmail ++ req.claimToken) := by
    cases hchain : env.chainOk with
    | true =>
      simp [adminReleasePOST, hA, hkey, hz, hum, hU, hT, hid, htok, hst,
        hexp, hW, hchain]
    | false =>
      simp [adminReleasePOST, hA, hkey, hz, hum, hU, hT, hid, htok, hst,
        hexp, hW, hchain]
  refine ⟨hsec, fun hnorm => ⟨?_, fun h => ?_⟩⟩
  · rw [hsec]
    unfold specClaimSecret
    rw [hnorm]
  · unfold specClaimSecret
    rw [hnorm]

/-- C9 witness: on an environment whose stored identity is already
lowercase, the reconstructed secret is the spec's claim secret. -/
theorem c9_claim_secret_reconstruction_witness :
    (adminReleasePOST sampleReleaseEnv sampleReleaseReq).escrowSecret
      = some ("bob@x.com" ++ "tok1")
    ∧ ((adminReleasePOST sampleReleaseEnv sampleReleaseReq).escrowSecret
        = some (specClaimSecret "bob@x.com" "tok1")
      ∧ ∀ h : String → Nat,
        h ("bob@x.com" ++ "tok1") = h (specClaimSecret "bob@x.com" "tok1")) :=
  ⟨(c9_claim_secret_reconstruction sampleReleaseEnv sampleReleaseReq ⟨"u1"⟩
      ⟨"u1", "bob@x.com", some "0xbob"⟩
      ⟨"alice@x.com", "bob@x.com", "25", "tok1", .pending, some 1000⟩ "0xbob"
      rfl rfl (by decide) rfl rfl rfl rfl rfl rfl rfl rfl).1,
   (c9_claim_secret_reconstruction sampleReleaseEnv sampleReleaseReq ⟨"u1"⟩
      ⟨"u1", "bob@x.com", some "0xbob"⟩
      ⟨"alice@x.com", "bob@x.com", "25", "tok1", .pending, some 1000⟩ "0xbob"
      rfl rfl (by decide) rfl rfl rfl rfl rfl rfl rfl rfl).2 (by decide)⟩

/-! ## Claim C7 -/

/-- Environment for the refund route: a pending transfer whose
`expiryDate` lies far in the future, clock well before it, no user record
for the sender. -/
def earlyRefundEnv : RefundEnv :=
  { transfer := fun tid =>
      if tid = "t1" then
        some ⟨"alice@x.com", "carol@y.com", "50", "tok", .pending,
              some 1000000⟩
      else none,
    userByEmail := fun _ => none,
    now := 5 }

/-- C7: the refund handler is reachable by any caller that knows the
transfer identifier and the sender's email — its request carries no
credential and the handler reads no authentication data — and it refunds a
pending transfer regardless of `expiryDate`: its outcome is independent of
the clock, and at a concrete instant well before expiry it still marks the
transfer refunded (with the literal simulated transaction hash, performing
no ledger call). -/
theorem c7_refund_unauthenticated_early (env : RefundEnv) :
    (∀ (req : RefundReq) (n1 n2 : Nat),
      refundPOST { env with now := n1 } req
        = refundPOST { env with now := n2 } req)
    ∧ (refundPOST earlyRefundEnv ⟨"t1", "alice@x.com"⟩).ok = true
    ∧ (refundPOST earlyRefundEnv ⟨"t1", "alice@x.com"⟩).writes
      = [.setStatus "t1" .refunded "simulated-refund-hash"]
    ∧ (refundPOST earlyRefundEnv ⟨"t1", "alice@x.com"⟩).escrowCalled = false
    ∧ earlyRefundEnv.now < 1000000
    ∧ earlyRefundEnv.transfer "t1"
      = some ⟨"alice@x.com", "carol@y.com", "50", "tok", .pending,
              some 1000000⟩ := by
  exact ⟨fun req n1 n2 => rfl, rfl, rfl, rfl, by decide, rfl⟩

end BetweenFriends
